import Mathlib

/-!
# MPL115A2 barometer driver: the coefficient decoder, the register checks,
# the two bus transactions, the compensation formula and the retry loops

A shallow embedding of `src/mpl115a2.c`.

Conventions of the embedding.

* `char` is the 8-bit *unsigned* character type of the ARM Linux ABI the
  program is written for (it opens `/dev/i2c-1`): the source compares a
  `char` with `0xff` and tests `(msb >> 7) == 1`, both of which can only
  succeed for an unsigned `char`.  A byte is a `Nat`; what is stored into
  `register_data` is reduced `% 256`.
* `int` values are `Int`; the return codes are `0` and `-1`.
* `float` and `double` values are the rationals they denote.  Every value
  that `convert_coefficient` produces has at most 16 significant bits and a
  small binary exponent, so it is represented exactly in a `float` and the
  rational is the value the C function returns.  The `double` arithmetic of
  `calc_pressure` rounds the result of every operation to the nearest
  binary64 value, ties to even (`to_double`).
* The I2C library (`lib/i2c-ctl.h`) is outside the source file.  Its calls
  are answered by an oracle held in the `World`, which also records every
  call, every `usleep` and every `printk` in a trace.
-/

namespace MPL115A2

/-! ## Constants -/

/-- The constant `#define I2C_SLAVE_MAX_RETRY 5`. -/
def I2C_SLAVE_MAX_RETRY : Nat := 5

/-- The constant `#define MPL115A2_WAIT_READMODE 3000`, in microseconds. -/
def MPL115A2_WAIT_READMODE : Nat := 3000

/-! ## Machine integers -/

/-- The value of a 32-bit two's-complement `int` that holds `x` modulo `2^32`. -/
def wrap32 (x : Int) : Int := (x + 2147483648) % 4294967296 - 2147483648

/-- The C expression `1 << k` on a 32-bit `int`, as the compiled program
evaluates it.  C defines it for a shift count in `0..30` only.  The shift
instruction takes the count modulo 32 (so do AArch64 and x86-64), and for a
count of 31 the value `2^31`, which does not fit an `int`, is the wrapped
value `-2^31` that two's-complement targets produce.  The value is never 0,
so the result is always `some` value and the division in
`convert_coefficient` is always defined. -/
def shl_one (k : Int) : Option Int :=
  some (wrap32 (2 ^ (k % 32).toNat))

/-! ## The coefficient decoder -/

/-- The exponent `16 - total_bits + fractional_bits + zero_pad` of a layout. -/
def layout_shift (total_bits fractional_bits zero_pad : Int) : Int :=
  16 - total_bits + fractional_bits + zero_pad

/-- The function `float convert_coefficient(char msb, char lsb, int total_bits,
int fractional_bits, int zero_pad)`.  The result is the value of the `float`
the function returns; it is always `some` value (see `shl_one`). -/
def convert_coefficient (msb lsb : Nat) (total_bits fractional_bits zero_pad : Int) :
    Option ℚ :=
  let sign : Int := 1
  let bytes : Nat := ((msb <<< 8) ||| lsb) % 65536
  let (bytes, sign) :=
    if (msb >>> 7) = 1 then (((0xffff ^^^ bytes) + 1) % 65536, (-1 : Int)) else (bytes, sign)
  match shl_one (layout_shift total_bits fractional_bits zero_pad) with
  | none => none
  | some p => some ((sign : ℚ) * ((bytes : ℚ) / (p : ℚ)))

/-! ## Reference notions used to state the decoder's contract -/

/-- The two's-complement signed value, in `-32768..32767`, of a 16-bit word. -/
def signed16 (w : Nat) : Int := if w < 32768 then (w : Int) else (w : Int) - 65536

/-- The big-endian two's-complement bytes `(msb, lsb)` of an integer. -/
def encode_be16 (n : Int) : Nat × Nat :=
  let w : Nat := (n % 65536).toNat
  (w / 256, w % 256)

/-! ## The record -/

/-- The record `struct mpl115a2`. -/
structure mpl115a2 where
  register_data : Fin 16 → Nat
  a0 : ℚ
  b1 : ℚ
  b2 : ℚ
  c12 : ℚ
  padc : Int
  tadc : Int
  c12x2 : ℚ
  a1 : ℚ
  a1x1 : ℚ
  y1 : ℚ
  a2x2 : ℚ
  pcomp : ℚ
  pressure : ℚ

/-- Every element of `register_data` is a `char`, a value in `0..255`. -/
def bytes_ok (d : mpl115a2) : Prop := ∀ i : Fin 16, d.register_data i < 256

instance (d : mpl115a2) : Decidable (bytes_ok d) := by
  unfold bytes_ok; infer_instance

/-! ## The world outside the program: the I2C bus, the clock and the log -/

/-- The diagnostics the program prints with `printk`. -/
inductive Msg where
  | coefficient_err (b12 b13 b14 b15 : Nat)
  | measure_err_padc (b0 b1 : Nat)
  | measure_err_tadc (b2 b3 : Nat)
  | coefficient_failed
  | coefficient_retry (count max : Nat)
  | measure_failed
  | measure_retry (count max : Nat)
  deriving DecidableEq

/-- What the program does to the outside world, in the order it does it. -/
inductive Event where
  | gen_i2c_slave
  | init_i2c_slave (ret : Int)
  | write_i2c_slave (data : List Nat) (ret : Int)
  | read_i2c_slave (len : Nat) (ret : Int)
  | term_i2c_slave (ret : Int)
  | destroy_i2c_slave (ret : Int)
  | usleep (usec : Nat)
  | printk (m : Msg)
  deriving DecidableEq

/-- The answer of the I2C library to one call: its return value, and for a
read the bytes it left in the caller's buffer. -/
structure Reply where
  ret : Int
  data : List Nat

/-- The outside world: `reply n` answers the library call number `n`,
`calls` counts the calls answered so far, `trace` lists the events so far. -/
structure World where
  reply : Nat → Reply
  calls : Nat
  trace : List Event

/-- Append an event to the trace. -/
def World.emit (w : World) (e : Event) : World :=
  { w with trace := w.trace ++ [e] }

/-- The call `printk(...)`: the message goes to the log. -/
def printk (w : World) (m : Msg) : World := w.emit (Event.printk m)

/-- The call `usleep(usec)`: the delay is recorded. -/
def usleep (w : World) (usec : Nat) : World := w.emit (Event.usleep usec)

/-- The buffer `buf` after `data` was stored from index `offset` on, each
value as a `char`. -/
def store (buf : Fin 16 → Nat) (offset : Nat) (data : List Nat) : Fin 16 → Nat :=
  fun i =>
    if offset ≤ i.val then
      match data.get? (i.val - offset) with
      | some b => b % 256
      | none => buf i
    else buf i

/-- Modelled from the spec: `gen_i2c_slave` of `lib/i2c-ctl`, which is not in
the source file; it builds the handle of the `open` capability and its result
is not checked by the callers. -/
def gen_i2c_slave (w : World) : World := w.emit Event.gen_i2c_slave

/-- Modelled from the spec: `init_i2c_slave` of `lib/i2c-ctl`, the `open` of
the BusTransport capability; the oracle gives its return value. -/
def init_i2c_slave (w : World) : Int × World :=
  let r := w.reply w.calls
  (r.ret, { w with calls := w.calls + 1, trace := w.trace ++ [Event.init_i2c_slave r.ret] })

/-- Modelled from the spec: `write_i2c_slave` of `lib/i2c-ctl`, the `write`
of the BusTransport capability; the oracle gives its return value. -/
def write_i2c_slave (w : World) (data : List Nat) : Int × World :=
  let r := w.reply w.calls
  (r.ret, { w with calls := w.calls + 1,
                   trace := w.trace ++ [Event.write_i2c_slave data r.ret] })

/-- Modelled from the spec: `read_i2c_slave` of `lib/i2c-ctl`, the `read` of
the BusTransport capability, reading `len` bytes into `buf` from index
`offset`; the oracle gives the return value and the bytes (at most `len`)
that reached the buffer. -/
def read_i2c_slave (w : World) (buf : Fin 16 → Nat) (offset len : Nat) :
    Int × (Fin 16 → Nat) × World :=
  let r := w.reply w.calls
  (r.ret, store buf offset (r.data.take len),
    { w with calls := w.calls + 1, trace := w.trace ++ [Event.read_i2c_slave len r.ret] })

/-- Modelled from the spec: `term_i2c_slave` of `lib/i2c-ctl`, the first half
of the `close` of the BusTransport capability. -/
def term_i2c_slave (w : World) : Int × World :=
  let r := w.reply w.calls
  (r.ret, { w with calls := w.calls + 1, trace := w.trace ++ [Event.term_i2c_slave r.ret] })

/-- Modelled from the spec: `destroy_i2c_slave` of `lib/i2c-ctl`, the second
half of the `close` of the BusTransport capability. -/
def destroy_i2c_slave (w : World) : Int × World :=
  let r := w.reply w.calls
  (r.ret, { w with calls := w.calls + 1,
                   trace := w.trace ++ [Event.destroy_i2c_slave r.ret] })

/-! ## The register checks -/

/-- The function `int check_coefficient_err(struct mpl115a2 *mpl115a2_data)` -/
def check_coefficient_err (d : mpl115a2) (w : World) : Int × World :=
  if d.register_data 12 ≠ 0 ∨ d.register_data 13 ≠ 0 ∨
      d.register_data 14 ≠ 0 ∨ d.register_data 15 ≠ 0 then
    (-1, printk w (Msg.coefficient_err (d.register_data 12) (d.register_data 13)
                    (d.register_data 14) (d.register_data 15)))
  else
    (0, w)

/-- The function `int check_measure_err(struct mpl115a2 *mpl115a2_data)` -/
def check_measure_err (d : mpl115a2) (w : World) : Int × World :=
  let ret : Int := 0
  let s1 : Int × World :=
    if (d.register_data 0 = 0x00 ∧ d.register_data 1 = 0x00) ∨
        (d.register_data 0 = 0xff ∧ d.register_data 1 = 0xff) then
      (-1, printk w (Msg.measure_err_padc (d.register_data 0) (d.register_data 1)))
    else (ret, w)
  let s2 : Int × World :=
    if (d.register_data 2 = 0x00 ∧ d.register_data 3 = 0x00) ∨
        (d.register_data 2 = 0xff ∧ d.register_data 3 = 0xff) then
      (-1, printk s1.2 (Msg.measure_err_tadc (d.register_data 2) (d.register_data 3)))
    else s1
  s2

/-! ## The two bus transactions -/

/-- The function `int get_coefficient(struct mpl115a2 *mpl115a2_data)`.  The
decoder's result is always `some` value (`convert_coefficient_layouts_defined`
shows it for the four layouts used here), so the default of `getD` is never
taken. -/
def get_coefficient (d : mpl115a2) (w : World) : Int × mpl115a2 × World :=
  let w := gen_i2c_slave w
  let r := init_i2c_slave w
  if r.1 = -1 then (-1, d, r.2) else
  let r := write_i2c_slave r.2 [0x04]
  if r.1 = -1 then (-1, d, r.2) else
  let r := read_i2c_slave r.2 d.register_data 4 12
  let d := { d with register_data := r.2.1 }
  if r.1 = -1 then (-1, d, r.2.2) else
  let r := term_i2c_slave r.2.2
  if r.1 = -1 then (-1, d, r.2) else
  let r := destroy_i2c_slave r.2
  if r.1 = -1 then (-1, d, r.2) else
  let r := check_coefficient_err d r.2
  if r.1 = -1 then (-1, d, r.2) else
  let d := { d with a0 :=
    (convert_coefficient (d.register_data 4) (d.register_data 5) 16 3 0).getD 0 }
  let d := { d with b1 :=
    (convert_coefficient (d.register_data 6) (d.register_data 7) 16 13 0).getD 0 }
  let d := { d with b2 :=
    (convert_coefficient (d.register_data 8) (d.register_data 9) 16 14 0).getD 0 }
  let d := { d with c12 :=
    (convert_coefficient (d.register_data 10) (d.register_data 11) 14 13 9).getD 0 }
  (0, d, r.2)

/-- The function `int measure(struct mpl115a2 *mpl115a2_data)` -/
def measure (d : mpl115a2) (w : World) : Int × mpl115a2 × World :=
  let w := gen_i2c_slave w
  let r := init_i2c_slave w
  if r.1 = -1 then (-1, d, r.2) else
  let r := write_i2c_slave r.2 [0x12, 0x00]
  if r.1 = -1 then (-1, d, r.2) else
  let w := usleep r.2 MPL115A2_WAIT_READMODE
  let r := write_i2c_slave w [0x00]
  if r.1 = -1 then (-1, d, r.2) else
  let r := read_i2c_slave r.2 d.register_data 0 4
  let d := { d with register_data := r.2.1 }
  if r.1 = -1 then (-1, d, r.2.2) else
  let r := term_i2c_slave r.2.2
  if r.1 = -1 then (-1, d, r.2) else
  let r := destroy_i2c_slave r.2
  if r.1 = -1 then (-1, d, r.2) else
  let r := check_measure_err d r.2
  if r.1 = -1 then (-1, d, r.2) else
  let d := { d with padc :=
    ((((d.register_data 0 <<< 8) ||| d.register_data 1) >>> 6 : Nat) : Int) }
  let d := { d with tadc :=
    ((((d.register_data 2 <<< 8) ||| d.register_data 3) >>> 6 : Nat) : Int) }
  (0, d, r.2)

/-! ## Double arithmetic -/

/-- The integer nearest to `q`, the even one of the two when `q` is halfway. -/
def round_half_even (q : ℚ) : Int :=
  let f : Int := ⌊q⌋
  let r : ℚ := q - f
  if r < 1 / 2 then f else if 1 / 2 < r then f + 1 else if f % 2 = 0 then f else f + 1

/-- The exponent of the unit in the last place of the binary64 values around
`q`: `e - 52` when `2^e <= |q| < 2^(e+1)`, and `-1074` in the subnormal
range. -/
def ulp_exponent (q : ℚ) : Int := max (Int.log 2 |q| - 52) (-1074)

/-- The binary64 value nearest to `q`, ties to even: the value a `double`
operation stores when its exact result is `q`.  The model has no infinities:
it is the C value as long as the result is below `2^1024` in magnitude, which
all values the program computes from its registers are. -/
def to_double (q : ℚ) : ℚ :=
  (round_half_even (q / 2 ^ ulp_exponent q) : ℚ) * 2 ^ ulp_exponent q

/-! ## The compensation formula -/

/-- The function `void calc_pressure(struct mpl115a2* mpl115a2_data)`.  Every
operation is a `double` operation, rounded by `to_double`; the conversion of
an `int` count to `double` is exact. -/
def calc_pressure (d : mpl115a2) : mpl115a2 :=
  let d := { d with c12x2 := to_double (d.c12 * (d.tadc : ℚ)) }
  let d := { d with a1 := to_double (d.b1 + d.c12x2) }
  let d := { d with a1x1 := to_double (d.a1 * (d.padc : ℚ)) }
  let d := { d with y1 := to_double (d.a0 + d.a1x1) }
  let d := { d with a2x2 := to_double (d.b2 * (d.tadc : ℚ)) }
  let d := { d with pcomp := to_double (d.y1 + d.a2x2) }
  let d := { d with pressure := to_double (to_double (to_double (d.pcomp * 65) / 1023) + 50) }
  d

/-! ## The retry loops -/

/-- The first `while` loop of `measure_retry`, entered with the retry counter
at `count`.  The first component is `some v` when the loop left the function
with `return v`, and `none` when the loop ended and the function goes on. -/
def measure_retry_coefficient_loop (count : Nat) (d : mpl115a2) (w : World) :
    Option Int × mpl115a2 × World :=
  let r := get_coefficient d w
  if r.1 = -1 then
    if h : I2C_SLAVE_MAX_RETRY < count + 1 then
      (some (-1), r.2.1, printk r.2.2 Msg.coefficient_failed)
    else
      let w := printk r.2.2 (Msg.coefficient_retry (count + 1) I2C_SLAVE_MAX_RETRY)
      let w := usleep w 1000000
      measure_retry_coefficient_loop (count + 1) r.2.1 w
  else (none, r.2.1, r.2.2)
termination_by I2C_SLAVE_MAX_RETRY + 1 - count
decreasing_by omega

/-- The second `while` loop of `measure_retry`, entered with the retry
counter at `count`; the result is read as for the first loop. -/
def measure_retry_measure_loop (count : Nat) (d : mpl115a2) (w : World) :
    Option Int × mpl115a2 × World :=
  let r := measure d w
  if r.1 = -1 then
    if h : I2C_SLAVE_MAX_RETRY < count + 1 then
      (some (-1), r.2.1, printk r.2.2 Msg.measure_failed)
    else
      let w := printk r.2.2 (Msg.measure_retry (count + 1) I2C_SLAVE_MAX_RETRY)
      let w := usleep w 1000000
      measure_retry_measure_loop (count + 1) r.2.1 w
  else (none, r.2.1, r.2.2)
termination_by I2C_SLAVE_MAX_RETRY + 1 - count
decreasing_by omega

/-- The function `int measure_retry(struct mpl115a2* mpl115a2_data)` -/
def measure_retry (d : mpl115a2) (w : World) : Int × mpl115a2 × World :=
  let count := 0
  match measure_retry_coefficient_loop count d w with
  | (some v, d, w) => (v, d, w)
  | (none, d, w) =>
    let count := 0
    match measure_retry_measure_loop count d w with
    | (some v, d, w) => (v, d, w)
    | (none, d, w) => (0, calc_pressure d, w)

/-! ## Notions used to state the retry contract -/

/-- The record and the world in which invocation number `i + 1` of
`get_coefficient` starts inside `measure_retry`, given that the `i` earlier
invocations failed: each failure is followed by the retry notice and the
one-second delay. -/
def coefficient_attempt (d : mpl115a2) (w : World) : Nat → mpl115a2 × World
  | 0 => (d, w)
  | i + 1 =>
    let s := coefficient_attempt d w i
    let r := get_coefficient s.1 s.2
    (r.2.1, usleep (printk r.2.2 (Msg.coefficient_retry (i + 1) I2C_SLAVE_MAX_RETRY)) 1000000)

/-- The record and the world in which invocation number `i + 1` of `measure`
starts inside the second loop, given that the `i` earlier ones failed. -/
def measure_attempt (d : mpl115a2) (w : World) : Nat → mpl115a2 × World
  | 0 => (d, w)
  | i + 1 =>
    let s := measure_attempt d w i
    let r := measure s.1 s.2
    (r.2.1, usleep (printk r.2.2 (Msg.measure_retry (i + 1) I2C_SLAVE_MAX_RETRY)) 1000000)

/-- The one-second back-off delays in a trace. -/
def backoff_delays (t : List Event) : Nat := t.count (Event.usleep 1000000)

/-- The retry notices of the coefficient loop in a trace. -/
def coefficient_retries (t : List Event) : List Nat :=
  t.filterMap fun e =>
    match e with
    | Event.printk (Msg.coefficient_retry count _) => some count
    | _ => none

/-- The retry notices of the measurement loop in a trace. -/
def measure_retries (t : List Event) : List Nat :=
  t.filterMap fun e =>
    match e with
    | Event.printk (Msg.measure_retry count _) => some count
    | _ => none

/-- The number of fetches (`get_coefficient` or `measure`) started in a
trace: each one starts with its one call of `gen_i2c_slave`. -/
def invocations (t : List Event) : Nat := t.count Event.gen_i2c_slave

/-! ## Sample records and worlds -/

/-- A record whose bytes and fields are all zero. -/
def blank_record : mpl115a2 :=
  { register_data := fun _ => 0, a0 := 0, b1 := 0, b2 := 0, c12 := 0, padc := 0, tadc := 0,
    c12x2 := 0, a1 := 0, a1x1 := 0, y1 := 0, a2x2 := 0, pcomp := 0, pressure := 0 }

/-- The world before any call, with the given oracle. -/
def world_of (reply : Nat → Reply) : World :=
  { reply := reply, calls := 0, trace := [] }

/-- A bus that answers every call with success and delivers `data` to every
read. -/
def bus_ok (data : List Nat) : Nat → Reply :=
  fun _ => { ret := 0, data := data }

/-- The record with the coefficients and counts of the worked example of the
compensation formula; each coefficient is the `double` nearest to its
decimal. -/
def example_record : mpl115a2 :=
  { blank_record with
    a0 := 2, b1 := to_double (-0.002), b2 := to_double (-0.00003),
    c12 := to_double 0.00000015, padc := 410, tadc := 1050 }

/-- A bus whose first `k` calls fail with -1 and whose later calls succeed and
deliver `data` to every read. -/
def bus_fail_then_ok (k : Nat) (data : List Nat) : Nat → Reply :=
  fun n => if n < k then { ret := -1, data := [] } else { ret := 0, data := data }

/-- A bus whose calls all fail with -1. -/
def bus_fail : Nat → Reply :=
  fun _ => { ret := -1, data := [] }

/-! ## Notions used to reason about traces -/

/-- The events of the library calls, of the register checks and of the
settle delay: everything but the start of a fetch, the one-second delay and
the notices of the retry loops. -/
def Event.inner : Event → Bool
  | Event.init_i2c_slave _ => true
  | Event.write_i2c_slave _ _ => true
  | Event.read_i2c_slave _ _ => true
  | Event.term_i2c_slave _ => true
  | Event.destroy_i2c_slave _ => true
  | Event.usleep u => u = MPL115A2_WAIT_READMODE
  | Event.printk (Msg.coefficient_err _ _ _ _) => true
  | Event.printk (Msg.measure_err_padc _ _) => true
  | Event.printk (Msg.measure_err_tadc _ _) => true
  | _ => false

/-- The trace of `w2` is the trace of `w1` followed by inner events only. -/
def quiet_extends (w1 w2 : World) : Prop :=
  ∃ evs, w2.trace = w1.trace ++ evs ∧ ∀ e ∈ evs, e.inner = true

/-! ## Notions used to state what a call leaves unchanged -/

/-- The records `d1` and `d2` have the same measurement part: the register
bytes 0..3 and the counts `padc`, `tadc`. -/
def same_measurement (d1 d2 : mpl115a2) : Prop :=
  (∀ i : Fin 16, i.val < 4 → d1.register_data i = d2.register_data i)
    ∧ d1.padc = d2.padc ∧ d1.tadc = d2.tadc

/-- The records `d1` and `d2` have the same coefficient part: the register
bytes 4..15 and the coefficients `a0`, `b1`, `b2`, `c12`. -/
def same_coefficients (d1 d2 : mpl115a2) : Prop :=
  (∀ i : Fin 16, 4 ≤ i.val → d1.register_data i = d2.register_data i)
    ∧ d1.a0 = d2.a0 ∧ d1.b1 = d2.b1 ∧ d1.b2 = d2.b2 ∧ d1.c12 = d2.c12

/-- The records `d1` and `d2` have the same terms of the compensation
formula: `c12x2`, `a1`, `a1x1`, `y1`, `a2x2`, `pcomp` and `pressure`. -/
def same_terms (d1 d2 : mpl115a2) : Prop :=
  d1.c12x2 = d2.c12x2 ∧ d1.a1 = d2.a1 ∧ d1.a1x1 = d2.a1x1 ∧ d1.y1 = d2.y1
    ∧ d1.a2x2 = d2.a2x2 ∧ d1.pcomp = d2.pcomp ∧ d1.pressure = d2.pressure

/-- The event is a call that releases the bus handle. -/
def Event.releases : Event → Bool
  | Event.term_i2c_slave _ => true
  | Event.destroy_i2c_slave _ => true
  | _ => false

/-- A bus whose call number `k` fails with -1 and whose other calls succeed
and deliver `data` to every read. -/
def bus_fail_at (k : Nat) (data : List Nat) : Nat → Reply :=
  fun n => if n = k then { ret := -1, data := [] } else { ret := 0, data := data }

/-- A bus whose calls number 0..4 and 10..14 fail with -1 and whose other
calls succeed and deliver `data` to every read. -/
def bus_fail_twice (data : List Nat) : Nat → Reply :=
  fun n =>
    if n < 5 ∨ (10 ≤ n ∧ n < 15) then { ret := -1, data := [] } else { ret := 0, data := data }

/-! ## Notions used to state the end-to-end scenario and the final record -/

/-- The coefficient bytes of the end-to-end scenario, `3e ce b3 f9 c5 17 33 c8`,
followed by the four zero padding bytes. -/
def scenario_coefficient_bytes : List Nat :=
  [0x3e, 0xce, 0xb3, 0xf9, 0xc5, 0x17, 0x33, 0xc8, 0, 0, 0, 0]

/-- The measurement bytes of the end-to-end scenario, `66 80 7e c0`. -/
def scenario_measurement_bytes : List Nat := [0x66, 0x80, 0x7e, 0xc0]

/-- The record is self-consistent: the padding bytes 12..15 are zero, the
bytes 0..3 pass `check_measure_err`, the coefficients are the decodings of
the bytes 4..11 in the layouts of `get_coefficient`, the counts are the
10-bit counts of the bytes 0..3, and the pressure is the compensation
formula of the coefficients and counts, evaluated in `double` arithmetic in
the order of `calc_pressure`. -/
def self_consistent (r : mpl115a2) : Prop :=
  (r.register_data 12 = 0 ∧ r.register_data 13 = 0 ∧ r.register_data 14 = 0
      ∧ r.register_data 15 = 0)
    ∧ (∀ w : World, (check_measure_err r w).1 = 0)
    ∧ (convert_coefficient (r.register_data 4) (r.register_data 5) 16 3 0 = some r.a0
      ∧ convert_coefficient (r.register_data 6) (r.register_data 7) 16 13 0 = some r.b1
      ∧ convert_coefficient (r.register_data 8) (r.register_data 9) 16 14 0 = some r.b2
      ∧ convert_coefficient (r.register_data 10) (r.register_data 11) 14 13 9 = some r.c12)
    ∧ (r.padc = (((r.register_data 0 * 256 + r.register_data 1) / 64 : Nat) : Int)
      ∧ r.tadc = (((r.register_data 2 * 256 + r.register_data 3) / 64 : Nat) : Int)
      ∧ r.padc ≤ 1023 ∧ r.tadc ≤ 1023)
    ∧ r.pressure
        = to_double (to_double (to_double (to_double
            (to_double (r.a0 + to_double (to_double (r.b1 + to_double (r.c12 * (r.tadc : ℚ)))
                * (r.padc : ℚ)))
              + to_double (r.b2 * (r.tadc : ℚ))) * 65) / 1023) + 50)

/-! ## Lemmas on the machine arithmetic -/

theorem xor_ffff (x : Nat) (h : x < 65536) : 0xffff ^^^ x = 65535 - x := by
  have h1 := BitVec.toNat_not (x := BitVec.ofNat 16 x)
  rw [← BitVec.allOnes_xor, BitVec.toNat_xor] at h1
  simp at h1
  rw [Nat.mod_eq_of_lt h] at h1
  omega

theorem shl8_or (msb lsb : Nat) (h : lsb < 256) : (msb <<< 8) ||| lsb = msb * 256 + lsb := by
  have h1 := Nat.mul_add_lt_is_or (i := 8) (b := lsb) (by simpa using h) msb
  rw [Nat.shiftLeft_eq, Nat.mul_comm msb (2 ^ 8), ← h1]

theorem shr7_eq_one (msb : Nat) (h : msb < 256) : msb >>> 7 = 1 ↔ 128 ≤ msb := by
  rw [Nat.shiftRight_eq_div_pow]
  omega

theorem shl_one_defined (k : Nat) (hk : k ≤ 30) : shl_one (k : Int) = some ((2 : Int) ^ k) := by
  have h1 : (2 : Int) ^ k < 2147483648 := by
    have : (2 : Nat) ^ k < 2 ^ 31 := Nat.pow_lt_pow_right (by norm_num) (by omega)
    have h2 : ((2 ^ k : Nat) : Int) < ((2 ^ 31 : Nat) : Int) := by exact_mod_cast this
    simpa using h2
  have h0 : (0 : Int) < 2 ^ k := by positivity
  have hm : ((k : Int) % 32).toNat = k := by omega
  simp only [shl_one, hm, wrap32]
  congr 1
  omega

/-- The decoder in closed form, for a shift count in `0..30`. -/
theorem convert_coefficient_eq (msb lsb : Nat) (total_bits fractional_bits zero_pad : Int)
    (k : Nat) (hm : msb < 256) (hl : lsb < 256)
    (hk : 16 - total_bits + fractional_bits + zero_pad = (k : Int)) (hk30 : k ≤ 30) :
    convert_coefficient msb lsb total_bits fractional_bits zero_pad
      = some ((signed16 (msb * 256 + lsb) : ℚ) / 2 ^ k) := by
  have hs : shl_one (layout_shift total_bits fractional_bits zero_pad) = some ((2 : Int) ^ k) := by
    rw [layout_shift, hk]; exact shl_one_defined k hk30
  have hw : msb * 256 + lsb < 65536 := by omega
  unfold convert_coefficient
  simp only [shl8_or msb lsb hl, Nat.mod_eq_of_lt hw, shr7_eq_one msb hm, hs]
  by_cases h : 128 ≤ msb
  · have hx : 0xffff ^^^ (msb * 256 + lsb) = 65535 - (msb * 256 + lsb) := xor_ffff _ hw
    have hlt : ¬ (msb * 256 + lsb < 32768) := by omega
    have hmod : (65535 - (msb * 256 + lsb) + 1) % 65536 = 65536 - (msb * 256 + lsb) := by omega
    simp only [if_pos h, hx, hmod, signed16, if_neg hlt]
    congr 1
    have : ((65536 - (msb * 256 + lsb) : Nat) : ℚ) = 65536 - ((msb * 256 + lsb : Nat) : ℚ) := by
      rw [Nat.cast_sub (by omega)]; norm_num
    rw [this]
    push_cast
    ring
  · have hlt : msb * 256 + lsb < 32768 := by omega
    simp only [if_neg h, signed16, if_pos hlt]
    congr 1
    push_cast
    ring

theorem encode_be16_spec (n : Int) (h0 : -32768 ≤ n) (h1 : n ≤ 32767) :
    (encode_be16 n).1 < 256 ∧ (encode_be16 n).2 < 256 ∧
      signed16 ((encode_be16 n).1 * 256 + (encode_be16 n).2) = n := by
  simp only [encode_be16, signed16]
  have hw : (n % 65536).toNat < 65536 := by omega
  refine ⟨by omega, by omega, ?_⟩
  have hwe : (n % 65536).toNat / 256 * 256 + (n % 65536).toNat % 256 = (n % 65536).toNat := by
    omega
  rw [hwe]
  split_ifs with h <;> omega

theorem signed16_neg (msb lsb : Nat) (hm : 128 ≤ msb) (hm2 : msb < 256) (hl : lsb < 256) :
    signed16 (msb * 256 + lsb) < 0 := by
  have hlt : ¬ (msb * 256 + lsb < 32768) := by omega
  simp only [signed16, if_neg hlt]
  omega

/-! ## The decoder: claims C1, C2, C3 -/

/-- C1: for all bytes `msb`, `lsb` in `0..255` and every layout whose exponent
`k = 16 - total_bits + fractional_bits + zero_pad` is in `0..30`,
`convert_coefficient` returns exactly `v / 2^k`, with `v` the signed 16-bit
value of the big-endian word `msb*256 + lsb`; hence decoding the big-endian
two's-complement bytes of any `n` in `-32768..32767` recovers `n / 2^k`. -/
theorem convert_coefficient_exact (msb lsb : Nat) (total_bits fractional_bits zero_pad : Int)
    (k : Nat) (hm : msb < 256) (hl : lsb < 256)
    (hk : 16 - total_bits + fractional_bits + zero_pad = (k : Int)) (hk30 : k ≤ 30) :
    convert_coefficient msb lsb total_bits fractional_bits zero_pad
        = some ((signed16 (msb * 256 + lsb) : ℚ) / 2 ^ k)
      ∧ (-32768 ≤ signed16 (msb * 256 + lsb) ∧ signed16 (msb * 256 + lsb) ≤ 32767)
      ∧ ∀ n : Int, -32768 ≤ n → n ≤ 32767 →
          convert_coefficient (encode_be16 n).1 (encode_be16 n).2
            total_bits fractional_bits zero_pad = some ((n : ℚ) / 2 ^ k) := by
  refine ⟨convert_coefficient_eq msb lsb _ _ _ k hm hl hk hk30, ?_, ?_⟩
  · unfold signed16
    split_ifs with h <;> omega
  · intro n h0 h1
    obtain ⟨e1, e2, e3⟩ := encode_be16_spec n h0 h1
    rw [convert_coefficient_eq _ _ _ _ _ k e1 e2 hk hk30, e3]

/-- C1, at the bytes `b3 f9` in the layout (16, 13, 0) of `b1`. -/
theorem convert_coefficient_exact_witness :
    convert_coefficient 0xb3 0xf9 16 13 0 = some ((signed16 (0xb3 * 256 + 0xf9) : ℚ) / 2 ^ 13)
      ∧ convert_coefficient (encode_be16 (-19463)).1 (encode_be16 (-19463)).2 16 13 0
          = some (((-19463 : Int) : ℚ) / 2 ^ 13) :=
  ⟨(convert_coefficient_exact 0xb3 0xf9 16 13 0 13 (by decide) (by decide) (by decide)
      (by decide)).1,
   (convert_coefficient_exact 0xb3 0xf9 16 13 0 13 (by decide) (by decide) (by decide)
      (by decide)).2.2 (-19463) (by decide) (by decide)⟩

/-- C2 as stated fails: with the layout (16, 31, 0) the shift `1 << 31` is
`INT_MIN`, and the byte pair `80 00`, whose top bit is set, decodes to the
positive value `1/65536`. -/
theorem decode_8000_layout_16_31_0_positive :
    convert_coefficient 0x80 0x00 16 31 0 = some (1 / 65536)
      ∧ ¬ ∃ q : ℚ, convert_coefficient 0x80 0x00 16 31 0 = some q ∧ q < 0 := by
  have h : convert_coefficient 0x80 0x00 16 31 0 = some (1 / 65536) := by
    simp [convert_coefficient, layout_shift, shl_one, wrap32]
    norm_num
  refine ⟨h, ?_⟩
  rintro ⟨q, hq, hneg⟩
  rw [h] at hq
  have hq2 : (1 / 65536 : ℚ) = q := Option.some.inj hq
  rw [← hq2] at hneg
  norm_num at hneg

/-- C2, amended: for every byte pair whose `msb` is in `0x80..0xFF`, every
`lsb` in `0..255` and every layout whose exponent is in `0..30`,
`convert_coefficient` returns a strictly negative value. -/
theorem convert_coefficient_msb_set_negative (msb lsb : Nat)
    (total_bits fractional_bits zero_pad : Int) (k : Nat)
    (hm : 0x80 ≤ msb) (hm2 : msb ≤ 0xFF) (hl : lsb < 256)
    (hk : 16 - total_bits + fractional_bits + zero_pad = (k : Int)) (hk30 : k ≤ 30) :
    ∃ q : ℚ, convert_coefficient msb lsb total_bits fractional_bits zero_pad = some q
      ∧ q < 0 := by
  refine ⟨_, convert_coefficient_eq msb lsb _ _ _ k (by omega) hl hk hk30, ?_⟩
  have hneg : signed16 (msb * 256 + lsb) < 0 := signed16_neg msb lsb hm (by omega) hl
  have hq : ((signed16 (msb * 256 + lsb) : Int) : ℚ) < 0 := by exact_mod_cast hneg
  exact div_neg_of_neg_of_pos hq (by positivity)

/-- C2 amended, at the bytes `c5 17` in the layout (16, 14, 0) of `b2`. -/
theorem convert_coefficient_msb_set_negative_witness :
    ∃ q : ℚ, convert_coefficient 0xc5 0x17 16 14 0 = some q ∧ q < 0 :=
  convert_coefficient_msb_set_negative 0xc5 0x17 16 14 0 14 (by decide) (by decide)
    (by decide) (by decide) (by decide)

/-- C4: `check_coefficient_err` returns -1 if and only if at least one of the
bytes 12, 13, 14, 15 is non-zero, and 0 exactly when all four are zero; two
records that agree on the bytes 12..15 get the same result, whatever their
other bytes and fields and whatever the world. -/
theorem check_coefficient_err_iff (d : mpl115a2) (w : World) :
    ((check_coefficient_err d w).1 = -1 ↔
        (d.register_data 12 ≠ 0 ∨ d.register_data 13 ≠ 0 ∨
          d.register_data 14 ≠ 0 ∨ d.register_data 15 ≠ 0))
      ∧ ((check_coefficient_err d w).1 = 0 ↔
        (d.register_data 12 = 0 ∧ d.register_data 13 = 0 ∧
          d.register_data 14 = 0 ∧ d.register_data 15 = 0))
      ∧ ∀ (d2 : mpl115a2) (w2 : World),
          (∀ i : Fin 16, 12 ≤ i.val → d2.register_data i = d.register_data i) →
          (check_coefficient_err d2 w2).1 = (check_coefficient_err d w).1 := by
  have hret : (check_coefficient_err d w).1 =
      if d.register_data 12 ≠ 0 ∨ d.register_data 13 ≠ 0 ∨
          d.register_data 14 ≠ 0 ∨ d.register_data 15 ≠ 0 then (-1 : Int) else 0 := by
    unfold check_coefficient_err
    split_ifs <;> rfl
  refine ⟨?_, ?_, ?_⟩
  · rw [hret]
    split_ifs with h
    · simp only [true_iff]; exact h
    · simp only [show ¬ ((0 : Int) = -1) by decide, false_iff]; exact h
  · rw [hret]
    split_ifs with h
    · simp only [show ¬ ((-1 : Int) = 0) by decide, false_iff]; omega
    · simp only [true_iff]; omega
  · intro d2 w2 hagree
    have h12 := hagree 12 (by decide)
    have h13 := hagree 13 (by decide)
    have h14 := hagree 14 (by decide)
    have h15 := hagree 15 (by decide)
    simp only [check_coefficient_err, h12, h13, h14, h15]
    split_ifs <;> rfl

/-- C5: `check_measure_err` returns -1 if and only if the bytes 0 and 1 are
both 0x00 or both 0xFF, or the bytes 2 and 3 are both 0x00 or both 0xFF; it
returns 0 for every other combination, such as the mixed pairs (0x00, 0xFF). -/
theorem check_measure_err_iff (d : mpl115a2) (w : World) :
    ((check_measure_err d w).1 = -1 ↔
        ((d.register_data 0 = 0x00 ∧ d.register_data 1 = 0x00) ∨
         (d.register_data 0 = 0xFF ∧ d.register_data 1 = 0xFF) ∨
         (d.register_data 2 = 0x00 ∧ d.register_data 3 = 0x00) ∨
         (d.register_data 2 = 0xFF ∧ d.register_data 3 = 0xFF)))
      ∧ ((check_measure_err d w).1 = 0 ↔
        ¬ ((d.register_data 0 = 0x00 ∧ d.register_data 1 = 0x00) ∨
           (d.register_data 0 = 0xFF ∧ d.register_data 1 = 0xFF) ∨
           (d.register_data 2 = 0x00 ∧ d.register_data 3 = 0x00) ∨
           (d.register_data 2 = 0xFF ∧ d.register_data 3 = 0xFF)))
      ∧ (d.register_data 0 = 0x00 → d.register_data 1 = 0xFF →
          d.register_data 2 = 0x00 → d.register_data 3 = 0xFF →
          (check_measure_err d w).1 = 0) := by
  have key : ∀ P Q : Prop, [Decidable P] → [Decidable Q] →
      ((if Q then ((-1 : Int), printk (if P then ((-1 : Int),
            printk w (Msg.measure_err_padc (d.register_data 0) (d.register_data 1)))
            else ((0 : Int), w)).2
          (Msg.measure_err_tadc (d.register_data 2) (d.register_data 3)))
        else (if P then ((-1 : Int),
            printk w (Msg.measure_err_padc (d.register_data 0) (d.register_data 1)))
            else ((0 : Int), w))).1 = if P ∨ Q then (-1 : Int) else 0) := by
    intro P Q _ _
    by_cases hP : P <;> by_cases hQ : Q <;> simp [hP, hQ]
  have hret : (check_measure_err d w).1 =
      if ((d.register_data 0 = 0x00 ∧ d.register_data 1 = 0x00) ∨
          (d.register_data 0 = 0xFF ∧ d.register_data 1 = 0xFF)) ∨
         ((d.register_data 2 = 0x00 ∧ d.register_data 3 = 0x00) ∨
          (d.register_data 2 = 0xFF ∧ d.register_data 3 = 0xFF)) then (-1 : Int) else 0 := by
    unfold check_measure_err
    exact key _ _
  rw [hret]
  refine ⟨?_, ?_, ?_⟩
  · split_ifs with h
    · simp only [true_iff]; tauto
    · simp only [show ¬ ((0 : Int) = -1) by decide, false_iff]; tauto
  · split_ifs with h
    · simp only [show ¬ ((-1 : Int) = 0) by decide, false_iff]; tauto
    · simp only [true_iff]; tauto
  · intro h0 h1 h2 h3
    rw [if_neg]
    rw [h0, h1, h2, h3]
    decide

/-- C5, at a block whose two pairs are the mixed pair (0x00, 0xFF). -/
theorem check_measure_err_iff_witness :
    (check_measure_err
      { register_data := fun i => if i.val % 2 = 0 then 0x00 else 0xFF,
        a0 := 0, b1 := 0, b2 := 0, c12 := 0, padc := 0, tadc := 0, c12x2 := 0, a1 := 0,
        a1x1 := 0, y1 := 0, a2x2 := 0, pcomp := 0, pressure := 0 }
      { reply := fun _ => { ret := 0, data := [] }, calls := 0, trace := [] }).1 = 0 :=
  (check_measure_err_iff _ _).2.2 (by decide) (by decide) (by decide) (by decide)

/-! ## Traces of the library calls and of the two transactions -/

theorem quiet_extends_refl (w : World) : quiet_extends w w :=
  ⟨[], by simp, by simp⟩

theorem quiet_extends_emit {w1 w2 : World} (e : Event) (he : e.inner = true)
    (h : quiet_extends w1 w2) : quiet_extends w1 (w2.emit e) := by
  obtain ⟨evs, h1, h2⟩ := h
  refine ⟨evs ++ [e], ?_, ?_⟩
  · simp [World.emit, h1]
  · intro x hx
    rcases List.mem_append.mp hx with hx | hx
    · exact h2 x hx
    · simp at hx; rw [hx]; exact he

theorem quiet_extends_init {w1 w2 : World} (h : quiet_extends w1 w2) :
    quiet_extends w1 (init_i2c_slave w2).2 :=
  quiet_extends_emit (Event.init_i2c_slave (w2.reply w2.calls).ret) rfl h

theorem quiet_extends_write {w1 w2 : World} {data : List Nat} (h : quiet_extends w1 w2) :
    quiet_extends w1 (write_i2c_slave w2 data).2 :=
  quiet_extends_emit (Event.write_i2c_slave data (w2.reply w2.calls).ret) rfl h

theorem quiet_extends_read {w1 w2 : World} {buf : Fin 16 → Nat} {o n : Nat}
    (h : quiet_extends w1 w2) : quiet_extends w1 (read_i2c_slave w2 buf o n).2.2 :=
  quiet_extends_emit (Event.read_i2c_slave n (w2.reply w2.calls).ret) rfl h

theorem quiet_extends_term {w1 w2 : World} (h : quiet_extends w1 w2) :
    quiet_extends w1 (term_i2c_slave w2).2 :=
  quiet_extends_emit (Event.term_i2c_slave (w2.reply w2.calls).ret) rfl h

theorem quiet_extends_destroy {w1 w2 : World} (h : quiet_extends w1 w2) :
    quiet_extends w1 (destroy_i2c_slave w2).2 :=
  quiet_extends_emit (Event.destroy_i2c_slave (w2.reply w2.calls).ret) rfl h

theorem quiet_extends_settle {w1 w2 : World} (h : quiet_extends w1 w2) :
    quiet_extends w1 (usleep w2 MPL115A2_WAIT_READMODE) :=
  quiet_extends_emit (Event.usleep MPL115A2_WAIT_READMODE) (by simp [Event.inner]) h

theorem quiet_extends_check_coefficient_err {w1 w2 : World} {d : mpl115a2}
    (h : quiet_extends w1 w2) : quiet_extends w1 (check_coefficient_err d w2).2 := by
  unfold check_coefficient_err
  split_ifs
  · exact quiet_extends_emit _ rfl h
  · exact h

theorem quiet_extends_check_measure_err {w1 w2 : World} {d : mpl115a2}
    (h : quiet_extends w1 w2) : quiet_extends w1 (check_measure_err d w2).2 := by
  unfold check_measure_err
  simp only
  split_ifs
  · exact quiet_extends_emit _ rfl (quiet_extends_emit _ rfl h)
  · exact quiet_extends_emit _ rfl h
  · exact quiet_extends_emit _ rfl h
  · exact h

/-- One `get_coefficient` records the start of the fetch and then inner
events only. -/
theorem get_coefficient_quiet (d : mpl115a2) (w : World) :
    quiet_extends (gen_i2c_slave w) (get_coefficient d w).2.2 := by
  unfold get_coefficient
  simp only
  split_ifs <;>
    repeat first
      | exact quiet_extends_refl _
      | apply quiet_extends_init
      | apply quiet_extends_write
      | apply @quiet_extends_read _ _ d.register_data 4 12
      | apply quiet_extends_term
      | apply quiet_extends_destroy
      | apply quiet_extends_check_coefficient_err

/-- One `measure` records the start of the fetch and then inner events only. -/
theorem measure_quiet (d : mpl115a2) (w : World) :
    quiet_extends (gen_i2c_slave w) (measure d w).2.2 := by
  unfold measure
  simp only
  split_ifs <;>
    repeat first
      | exact quiet_extends_refl _
      | apply quiet_extends_init
      | apply quiet_extends_write
      | apply @quiet_extends_read _ _ d.register_data 0 4
      | apply quiet_extends_term
      | apply quiet_extends_destroy
      | apply quiet_extends_settle
      | apply quiet_extends_check_measure_err

theorem quiet_extends_count {w1 w2 : World} (h : quiet_extends w1 w2) (a : Event)
    (ha : a.inner = false) : w2.trace.count a = w1.trace.count a := by
  obtain ⟨evs, h1, h2⟩ := h
  rw [h1, List.count_append]
  have : evs.count a = 0 := by
    rw [List.count_eq_zero]
    intro hmem
    have := h2 a hmem
    rw [ha] at this
    exact Bool.noConfusion this
  omega

theorem quiet_extends_filterMap {β : Type} {w1 w2 : World} (h : quiet_extends w1 w2)
    (f : Event → Option β) (hf : ∀ e, e.inner = true → f e = none) :
    w2.trace.filterMap f = w1.trace.filterMap f := by
  obtain ⟨evs, h1, h2⟩ := h
  rw [h1, List.filterMap_append]
  have : evs.filterMap f = [] := by
    rw [List.filterMap_eq_nil_iff]
    intro e he
    exact hf e (h2 e he)
  rw [this, List.append_nil]


theorem coefficient_retries_inner (e : Event) (h : e.inner = true) :
    (match e with
      | Event.printk (Msg.coefficient_retry count _) => some count
      | _ => none) = none := by
  cases e with
  | printk m => cases m <;> first | rfl | simp [Event.inner] at h
  | _ => rfl

theorem measure_retries_inner (e : Event) (h : e.inner = true) :
    (match e with
      | Event.printk (Msg.measure_retry count _) => some count
      | _ => none) = none := by
  cases e with
  | printk m => cases m <;> first | rfl | simp [Event.inner] at h
  | _ => rfl

/-- What one fetch, `get_coefficient` or `measure`, adds to the observations
of a trace: one more invocation, no back-off delay, no retry notice. -/
theorem fetch_observations (w w2 : World) (h : quiet_extends (gen_i2c_slave w) w2) :
    invocations w2.trace = invocations w.trace + 1
      ∧ backoff_delays w2.trace = backoff_delays w.trace
      ∧ coefficient_retries w2.trace = coefficient_retries w.trace
      ∧ measure_retries w2.trace = measure_retries w.trace := by
  refine ⟨?_, ?_, ?_, ?_⟩
  · unfold invocations
    rw [quiet_extends_count h Event.gen_i2c_slave rfl]
    simp [gen_i2c_slave, World.emit, List.count_append]
  · unfold backoff_delays
    rw [quiet_extends_count h (Event.usleep 1000000) (by simp [Event.inner, MPL115A2_WAIT_READMODE])]
    simp [gen_i2c_slave, World.emit, List.count_append]
  · unfold coefficient_retries
    rw [quiet_extends_filterMap h _ coefficient_retries_inner]
    simp [gen_i2c_slave, World.emit, List.filterMap_append]
  · unfold measure_retries
    rw [quiet_extends_filterMap h _ measure_retries_inner]
    simp [gen_i2c_slave, World.emit, List.filterMap_append]

/-- The observations of the trace when invocation `i + 1` of
`get_coefficient` starts. -/
theorem coefficient_attempt_observations (d : mpl115a2) (w : World) (i : Nat) :
    invocations (coefficient_attempt d w i).2.trace = invocations w.trace + i
      ∧ backoff_delays (coefficient_attempt d w i).2.trace = backoff_delays w.trace + i
      ∧ coefficient_retries (coefficient_attempt d w i).2.trace
          = coefficient_retries w.trace ++ List.range' 1 i
      ∧ measure_retries (coefficient_attempt d w i).2.trace = measure_retries w.trace := by
  induction i with
  | zero => simp [coefficient_attempt]
  | succ i ih =>
    obtain ⟨i1, i2, i3, i4⟩ := ih
    obtain ⟨f1, f2, f3, f4⟩ := fetch_observations _ _
      (get_coefficient_quiet (coefficient_attempt d w i).1 (coefficient_attempt d w i).2)
    simp only [coefficient_attempt]
    refine ⟨?_, ?_, ?_, ?_⟩
    · simp [invocations, usleep, printk, World.emit, List.count_append] at f1 i1 ⊢
      omega
    · simp [backoff_delays, usleep, printk, World.emit, List.count_append] at f2 i2 ⊢
      omega
    · simp only [coefficient_retries, usleep, printk, World.emit, List.filterMap_append] at f3 i3 ⊢
      rw [f3, i3]
      simp [List.range'_concat, Nat.add_comm]
    · simp only [measure_retries, usleep, printk, World.emit, List.filterMap_append] at f4 i4 ⊢
      rw [f4, i4]
      simp


/-- The observations of the trace when invocation `i + 1` of `measure`
starts. -/
theorem measure_attempt_observations (d : mpl115a2) (w : World) (i : Nat) :
    invocations (measure_attempt d w i).2.trace = invocations w.trace + i
      ∧ backoff_delays (measure_attempt d w i).2.trace = backoff_delays w.trace + i
      ∧ measure_retries (measure_attempt d w i).2.trace
          = measure_retries w.trace ++ List.range' 1 i
      ∧ coefficient_retries (measure_attempt d w i).2.trace = coefficient_retries w.trace := by
  induction i with
  | zero => simp [measure_attempt]
  | succ i ih =>
    obtain ⟨i1, i2, i3, i4⟩ := ih
    obtain ⟨f1, f2, f4, f3⟩ := fetch_observations _ _
      (measure_quiet (measure_attempt d w i).1 (measure_attempt d w i).2)
    simp only [measure_attempt]
    refine ⟨?_, ?_, ?_, ?_⟩
    · simp [invocations, usleep, printk, World.emit, List.count_append] at f1 i1 ⊢
      omega
    · simp [backoff_delays, usleep, printk, World.emit, List.count_append] at f2 i2 ⊢
      omega
    · simp only [measure_retries, usleep, printk, World.emit, List.filterMap_append] at f3 i3 ⊢
      rw [f3, i3]
      simp [List.range'_concat, Nat.add_comm]
    · simp only [coefficient_retries, usleep, printk, World.emit, List.filterMap_append] at f4 i4 ⊢
      rw [f4, i4]
      simp

/-! ## The retry loops, step by step -/

theorem coefficient_loop_success (count : Nat) (d : mpl115a2) (w : World)
    (h : (get_coefficient d w).1 ≠ -1) :
    measure_retry_coefficient_loop count d w
      = (none, (get_coefficient d w).2.1, (get_coefficient d w).2.2) := by
  rw [measure_retry_coefficient_loop]
  simp only [if_neg h]

theorem coefficient_loop_exhausted (count : Nat) (d : mpl115a2) (w : World)
    (h : (get_coefficient d w).1 = -1) (hc : I2C_SLAVE_MAX_RETRY < count + 1) :
    measure_retry_coefficient_loop count d w
      = (some (-1), (get_coefficient d w).2.1,
          printk (get_coefficient d w).2.2 Msg.coefficient_failed) := by
  rw [measure_retry_coefficient_loop]
  simp only [if_pos h, dif_pos hc]

theorem coefficient_loop_retry (count : Nat) (d : mpl115a2) (w : World)
    (h : (get_coefficient d w).1 = -1) (hc : ¬ I2C_SLAVE_MAX_RETRY < count + 1) :
    measure_retry_coefficient_loop count d w
      = measure_retry_coefficient_loop (count + 1) (get_coefficient d w).2.1
          (usleep (printk (get_coefficient d w).2.2
            (Msg.coefficient_retry (count + 1) I2C_SLAVE_MAX_RETRY)) 1000000) := by
  rw [measure_retry_coefficient_loop]
  simp only [if_pos h, dif_neg hc]

/-- After `j` failed invocations, with `j` within the limit, the first loop
is at its invocation `j + 1` with the counter at `j`. -/
theorem coefficient_loop_after_failures (d : mpl115a2) (w : World) (j : Nat)
    (hj : j ≤ I2C_SLAVE_MAX_RETRY)
    (hfail : ∀ i, i < j →
      (get_coefficient (coefficient_attempt d w i).1 (coefficient_attempt d w i).2).1 = -1) :
    measure_retry_coefficient_loop 0 d w
      = measure_retry_coefficient_loop j (coefficient_attempt d w j).1
          (coefficient_attempt d w j).2 := by
  induction j with
  | zero => rfl
  | succ j ih =>
    rw [ih (by omega) (fun i hi => hfail i (by omega))]
    rw [coefficient_loop_retry j _ _ (hfail j (by omega)) (by omega)]
    rfl

theorem measure_loop_success (count : Nat) (d : mpl115a2) (w : World)
    (h : (measure d w).1 ≠ -1) :
    measure_retry_measure_loop count d w = (none, (measure d w).2.1, (measure d w).2.2) := by
  rw [measure_retry_measure_loop]
  simp only [if_neg h]

theorem measure_loop_exhausted (count : Nat) (d : mpl115a2) (w : World)
    (h : (measure d w).1 = -1) (hc : I2C_SLAVE_MAX_RETRY < count + 1) :
    measure_retry_measure_loop count d w
      = (some (-1), (measure d w).2.1, printk (measure d w).2.2 Msg.measure_failed) := by
  rw [measure_retry_measure_loop]
  simp only [if_pos h, dif_pos hc]

theorem measure_loop_retry (count : Nat) (d : mpl115a2) (w : World)
    (h : (measure d w).1 = -1) (hc : ¬ I2C_SLAVE_MAX_RETRY < count + 1) :
    measure_retry_measure_loop count d w
      = measure_retry_measure_loop (count + 1) (measure d w).2.1
          (usleep (printk (measure d w).2.2
            (Msg.measure_retry (count + 1) I2C_SLAVE_MAX_RETRY)) 1000000) := by
  rw [measure_retry_measure_loop]
  simp only [if_pos h, dif_neg hc]

/-- After `j` failed invocations, with `j` within the limit, the second loop
is at its invocation `j + 1` with the counter at `j`. -/
theorem measure_loop_after_failures (d : mpl115a2) (w : World) (j : Nat)
    (hj : j ≤ I2C_SLAVE_MAX_RETRY)
    (hfail : ∀ i, i < j →
      (measure (measure_attempt d w i).1 (measure_attempt d w i).2).1 = -1) :
    measure_retry_measure_loop 0 d w
      = measure_retry_measure_loop j (measure_attempt d w j).1 (measure_attempt d w j).2 := by
  induction j with
  | zero => rfl
  | succ j ih =>
    rw [ih (by omega) (fun i hi => hfail i (by omega))]
    rw [measure_loop_retry j _ _ (hfail j (by omega)) (by omega)]
    rfl


/-! ## The two transactions on success -/

theorem store_lt (buf : Fin 16 → Nat) (o : Nat) (data : List Nat)
    (h : ∀ i, buf i < 256) (i : Fin 16) : store buf o data i < 256 := by
  unfold store
  split_ifs
  · split
    · exact Nat.mod_lt _ (by decide)
    · exact h i
  · exact h i

/-- The bytes of the record stay in `0..255` through a `measure`. -/
theorem measure_bytes_ok (d : mpl115a2) (w : World) (h : bytes_ok d) :
    bytes_ok (measure d w).2.1 := by
  unfold measure
  simp only
  split_ifs <;> first | exact h | exact fun i => store_lt _ _ _ h i

/-- The bytes of the record stay in `0..255` through a `get_coefficient`. -/
theorem get_coefficient_bytes_ok (d : mpl115a2) (w : World) (h : bytes_ok d) :
    bytes_ok (get_coefficient d w).2.1 := by
  unfold get_coefficient
  simp only
  split_ifs <;> first | exact h | exact fun i => store_lt _ _ _ h i

/-- What a successful `measure` stored. -/
theorem measure_success (d : mpl115a2) (w : World) (h : (measure d w).1 = 0) :
    (measure d w).2.1.padc
        = ((((measure d w).2.1.register_data 0 <<< 8 |||
              (measure d w).2.1.register_data 1) >>> 6 : Nat) : Int)
      ∧ (measure d w).2.1.tadc
        = ((((measure d w).2.1.register_data 2 <<< 8 |||
              (measure d w).2.1.register_data 3) >>> 6 : Nat) : Int) := by
  unfold measure at h ⊢
  simp only at h ⊢
  split_ifs at h ⊢ <;> first | (exfalso; simp at h; done) | exact ⟨rfl, rfl⟩

/-- What a successful `get_coefficient` stored. -/
theorem get_coefficient_success (d : mpl115a2) (w : World)
    (h : (get_coefficient d w).1 = 0) :
    (get_coefficient d w).2.1.a0
        = (convert_coefficient ((get_coefficient d w).2.1.register_data 4)
            ((get_coefficient d w).2.1.register_data 5) 16 3 0).getD 0
      ∧ (get_coefficient d w).2.1.b1
        = (convert_coefficient ((get_coefficient d w).2.1.register_data 6)
            ((get_coefficient d w).2.1.register_data 7) 16 13 0).getD 0
      ∧ (get_coefficient d w).2.1.b2
        = (convert_coefficient ((get_coefficient d w).2.1.register_data 8)
            ((get_coefficient d w).2.1.register_data 9) 16 14 0).getD 0
      ∧ (get_coefficient d w).2.1.c12
        = (convert_coefficient ((get_coefficient d w).2.1.register_data 10)
            ((get_coefficient d w).2.1.register_data 11) 14 13 9).getD 0 := by
  unfold get_coefficient at h ⊢
  simp only at h ⊢
  split_ifs at h ⊢ <;> first | (exfalso; simp at h; done) | exact ⟨rfl, rfl, rfl, rfl⟩

/-- The decoder is defined at the four layouts of `get_coefficient`, for all
bytes: its shift counts are 3, 13, 14 and 24. -/
theorem convert_coefficient_layouts_defined (msb lsb : Nat) :
    (convert_coefficient msb lsb 16 3 0).isSome = true
      ∧ (convert_coefficient msb lsb 16 13 0).isSome = true
      ∧ (convert_coefficient msb lsb 16 14 0).isSome = true
      ∧ (convert_coefficient msb lsb 14 13 9).isSome = true := by
  have h3 : shl_one (layout_shift 16 3 0) = some ((2 : Int) ^ 3) := shl_one_defined 3 (by decide)
  have h13 : shl_one (layout_shift 16 13 0) = some ((2 : Int) ^ 13) :=
    shl_one_defined 13 (by decide)
  have h14 : shl_one (layout_shift 16 14 0) = some ((2 : Int) ^ 14) :=
    shl_one_defined 14 (by decide)
  have h24 : shl_one (layout_shift 14 13 9) = some ((2 : Int) ^ 24) :=
    shl_one_defined 24 (by decide)
  simp only [convert_coefficient, h3, h13, h14, h24]
  simp

/-! ## The two transactions: claims C6, C7 -/

/-- C6: after every successful `measure` on a record of bytes, with `b0..b3`
the register bytes 0..3 it read, `padc = (b0*256 + b1) >> 6` and
`tadc = (b2*256 + b3) >> 6`, the floor of the big-endian 16-bit word divided
by 64; in particular the bytes `66 80` give 410. -/
theorem measure_counts (d : mpl115a2) (w : World) (hd : bytes_ok d)
    (hret : (measure d w).1 = 0) :
    (measure d w).2.1.padc
        = ((((measure d w).2.1.register_data 0 * 256 +
              (measure d w).2.1.register_data 1) >>> 6 : Nat) : Int)
      ∧ (measure d w).2.1.tadc
        = ((((measure d w).2.1.register_data 2 * 256 +
              (measure d w).2.1.register_data 3) >>> 6 : Nat) : Int)
      ∧ (measure d w).2.1.padc
        = ((((measure d w).2.1.register_data 0 * 256 +
              (measure d w).2.1.register_data 1) / 64 : Nat) : Int)
      ∧ (measure d w).2.1.tadc
        = ((((measure d w).2.1.register_data 2 * 256 +
              (measure d w).2.1.register_data 3) / 64 : Nat) : Int)
      ∧ ((measure d w).2.1.register_data 0 = 0x66 →
          (measure d w).2.1.register_data 1 = 0x80 → (measure d w).2.1.padc = 410) := by
  obtain ⟨hp, ht⟩ := measure_success d w hret
  have hb := measure_bytes_ok d w hd
  rw [shl8_or _ _ (hb 1)] at hp
  rw [shl8_or _ _ (hb 3)] at ht
  refine ⟨hp, ht, ?_, ?_, ?_⟩
  · rw [hp, Nat.shiftRight_eq_div_pow]
  · rw [ht, Nat.shiftRight_eq_div_pow]
  · intro h0 h1
    rw [hp, h0, h1]
    rfl

/-- C6, at a world whose bus answers every call with success and delivers the
bytes `66 80 12 34`. -/
theorem measure_counts_witness :
    (measure blank_record (world_of (bus_ok [0x66, 0x80, 0x12, 0x34]))).1 = 0
      ∧ (measure blank_record (world_of (bus_ok [0x66, 0x80, 0x12, 0x34]))).2.1.padc = 410 :=
  ⟨by decide,
   (measure_counts blank_record (world_of (bus_ok [0x66, 0x80, 0x12, 0x34]))
      (by decide) (by decide)).2.2.2.2 (by decide) (by decide)⟩

/-- C7: after every successful `get_coefficient` on a record of bytes, the
stored coefficients are the decodings of the register bytes 4..11 in the
layouts (16, 3, 0), (16, 13, 0), (16, 14, 0) and (14, 13, 9): with `s` the
signed 16-bit value of a pair, `a0 = s/2^3`, `b1 = s/2^13`, `b2 = s/2^14` and
`c12 = s/2^24`. -/
theorem get_coefficient_decodes (d : mpl115a2) (w : World) (hd : bytes_ok d)
    (hret : (get_coefficient d w).1 = 0) :
    (convert_coefficient ((get_coefficient d w).2.1.register_data 4)
          ((get_coefficient d w).2.1.register_data 5) 16 3 0
        = some (get_coefficient d w).2.1.a0
      ∧ convert_coefficient ((get_coefficient d w).2.1.register_data 6)
          ((get_coefficient d w).2.1.register_data 7) 16 13 0
        = some (get_coefficient d w).2.1.b1
      ∧ convert_coefficient ((get_coefficient d w).2.1.register_data 8)
          ((get_coefficient d w).2.1.register_data 9) 16 14 0
        = some (get_coefficient d w).2.1.b2
      ∧ convert_coefficient ((get_coefficient d w).2.1.register_data 10)
          ((get_coefficient d w).2.1.register_data 11) 14 13 9
        = some (get_coefficient d w).2.1.c12)
      ∧ ((get_coefficient d w).2.1.a0
          = (signed16 ((get_coefficient d w).2.1.register_data 4 * 256 +
              (get_coefficient d w).2.1.register_data 5) : ℚ) / 2 ^ 3
        ∧ (get_coefficient d w).2.1.b1
          = (signed16 ((get_coefficient d w).2.1.register_data 6 * 256 +
              (get_coefficient d w).2.1.register_data 7) : ℚ) / 2 ^ 13
        ∧ (get_coefficient d w).2.1.b2
          = (signed16 ((get_coefficient d w).2.1.register_data 8 * 256 +
              (get_coefficient d w).2.1.register_data 9) : ℚ) / 2 ^ 14
        ∧ (get_coefficient d w).2.1.c12
          = (signed16 ((get_coefficient d w).2.1.register_data 10 * 256 +
              (get_coefficient d w).2.1.register_data 11) : ℚ) / 2 ^ 24) := by
  obtain ⟨ha0, hb1, hb2, hc12⟩ := get_coefficient_success d w hret
  have hb := get_coefficient_bytes_ok d w hd
  have e0 := convert_coefficient_eq _ _ 16 3 0 3 (hb 4) (hb 5) (by decide) (by decide)
  have e1 := convert_coefficient_eq _ _ 16 13 0 13 (hb 6) (hb 7) (by decide) (by decide)
  have e2 := convert_coefficient_eq _ _ 16 14 0 14 (hb 8) (hb 9) (by decide) (by decide)
  have e3 := convert_coefficient_eq _ _ 14 13 9 24 (hb 10) (hb 11) (by decide) (by decide)
  rw [e0] at ha0
  rw [e1] at hb1
  rw [e2] at hb2
  rw [e3] at hc12
  simp only [Option.getD_some] at ha0 hb1 hb2 hc12
  refine ⟨⟨?_, ?_, ?_, ?_⟩, ha0, hb1, hb2, hc12⟩
  · rw [e0, ha0]
  · rw [e1, hb1]
  · rw [e2, hb2]
  · rw [e3, hc12]

/-- C7, at a world whose bus answers every call with success and delivers the
coefficient bytes `3e ce b3 f9 c5 17 33 c8` followed by four zero bytes: the
stored `a0` is `0x3ece / 8`. -/
theorem get_coefficient_decodes_witness :
    (get_coefficient blank_record (world_of (bus_ok
        [0x3e, 0xce, 0xb3, 0xf9, 0xc5, 0x17, 0x33, 0xc8, 0, 0, 0, 0]))).1 = 0
      ∧ convert_coefficient 0x3e 0xce 16 3 0
        = some (get_coefficient blank_record (world_of (bus_ok
            [0x3e, 0xce, 0xb3, 0xf9, 0xc5, 0x17, 0x33, 0xc8, 0, 0, 0, 0]))).2.1.a0 :=
  ⟨by decide,
   (get_coefficient_decodes blank_record (world_of (bus_ok
      [0x3e, 0xce, 0xb3, 0xf9, 0xc5, 0x17, 0x33, 0xc8, 0, 0, 0, 0]))
      (by decide) (by decide)).1.1⟩

/-! ## The retry loops: claims C9, C10 -/

theorem printk_observations (w : World) (m : Msg) :
    invocations (printk w m).trace = invocations w.trace
      ∧ backoff_delays (printk w m).trace = backoff_delays w.trace := by
  simp [invocations, backoff_delays, printk, World.emit, List.count_append]

/-- C9: in either loop of `measure_retry`, with the limit of 5 retries, a
fetch that fails on its first 5 invocations and succeeds on the 6th ends the
loop normally with the result of that 6th invocation, after exactly the 5
retry notices numbered 1..5, 5 delays of one second and 6 invocations; and
when it is the measurement fetch, `measure_retry` returns 0 with the pressure
computed from that result. -/
theorem measure_retry_sixth_attempt (d : mpl115a2) (w : World) :
    ((∀ i, i < 5 →
          (get_coefficient (coefficient_attempt d w i).1 (coefficient_attempt d w i).2).1 = -1) →
        (get_coefficient (coefficient_attempt d w 5).1 (coefficient_attempt d w 5).2).1 = 0 →
        measure_retry_coefficient_loop 0 d w
            = (none,
                (get_coefficient (coefficient_attempt d w 5).1 (coefficient_attempt d w 5).2).2.1,
                (get_coefficient (coefficient_attempt d w 5).1 (coefficient_attempt d w 5).2).2.2)
          ∧ coefficient_retries (measure_retry_coefficient_loop 0 d w).2.2.trace
              = coefficient_retries w.trace ++ [1, 2, 3, 4, 5]
          ∧ backoff_delays (measure_retry_coefficient_loop 0 d w).2.2.trace
              = backoff_delays w.trace + 5
          ∧ invocations (measure_retry_coefficient_loop 0 d w).2.2.trace
              = invocations w.trace + 6)
      ∧ ((∀ i, i < 5 → (measure (measure_attempt d w i).1 (measure_attempt d w i).2).1 = -1) →
        (measure (measure_attempt d w 5).1 (measure_attempt d w 5).2).1 = 0 →
        measure_retry_measure_loop 0 d w
            = (none, (measure (measure_attempt d w 5).1 (measure_attempt d w 5).2).2.1,
                (measure (measure_attempt d w 5).1 (measure_attempt d w 5).2).2.2)
          ∧ measure_retries (measure_retry_measure_loop 0 d w).2.2.trace
              = measure_retries w.trace ++ [1, 2, 3, 4, 5]
          ∧ backoff_delays (measure_retry_measure_loop 0 d w).2.2.trace
              = backoff_delays w.trace + 5
          ∧ invocations (measure_retry_measure_loop 0 d w).2.2.trace
              = invocations w.trace + 6
          ∧ ∀ (d0 : mpl115a2) (w0 : World),
              measure_retry_coefficient_loop 0 d0 w0 = (none, d, w) →
              measure_retry d0 w0
                = (0,
                    calc_pressure
                      (measure (measure_attempt d w 5).1 (measure_attempt d w 5).2).2.1,
                    (measure (measure_attempt d w 5).1 (measure_attempt d w 5).2).2.2)) := by
  constructor
  · intro hfail hok
    have hne : (get_coefficient (coefficient_attempt d w 5).1
        (coefficient_attempt d w 5).2).1 ≠ -1 := by rw [hok]; decide
    have hloop := coefficient_loop_after_failures d w 5 (by decide) hfail
    rw [coefficient_loop_success 5 _ _ hne] at hloop
    obtain ⟨a1, a2, a3, _⟩ := coefficient_attempt_observations d w 5
    obtain ⟨f1, f2, f3, _⟩ := fetch_observations _ _
      (get_coefficient_quiet (coefficient_attempt d w 5).1 (coefficient_attempt d w 5).2)
    refine ⟨hloop, ?_, ?_, ?_⟩
    · rw [hloop]; simp only []; rw [f3, a3]; rfl
    · rw [hloop]; simp only []; rw [f2, a2]
    · rw [hloop]; simp only []; rw [f1, a1]
  · intro hfail hok
    have hne : (measure (measure_attempt d w 5).1 (measure_attempt d w 5).2).1 ≠ -1 := by
      rw [hok]; decide
    have hloop := measure_loop_after_failures d w 5 (by decide) hfail
    rw [measure_loop_success 5 _ _ hne] at hloop
    obtain ⟨a1, a2, a3, _⟩ := measure_attempt_observations d w 5
    obtain ⟨f1, f2, _, f3⟩ := fetch_observations _ _
      (measure_quiet (measure_attempt d w 5).1 (measure_attempt d w 5).2)
    refine ⟨hloop, ?_, ?_, ?_, ?_⟩
    · rw [hloop]; simp only []; rw [f3, a3]; rfl
    · rw [hloop]; simp only []; rw [f2, a2]
    · rw [hloop]; simp only []; rw [f1, a1]
    · intro d0 w0 h0
      simp only [measure_retry, h0, hloop]

/-- C9, at a bus whose first 5 calls fail, so that 5 fetches fail at
`init_i2c_slave`, and whose later calls succeed. -/
theorem measure_retry_sixth_attempt_witness :
    ((∀ i, i < 5 →
        (get_coefficient
          (coefficient_attempt blank_record
            (world_of (bus_fail_then_ok 5 [0, 0, 0, 0, 0, 0, 0, 0, 0, 0, 0, 0])) i).1
          (coefficient_attempt blank_record
            (world_of (bus_fail_then_ok 5 [0, 0, 0, 0, 0, 0, 0, 0, 0, 0, 0, 0])) i).2).1 = -1)
      ∧ backoff_delays (measure_retry_coefficient_loop 0 blank_record
          (world_of (bus_fail_then_ok 5 [0, 0, 0, 0, 0, 0, 0, 0, 0, 0, 0, 0]))).2.2.trace
          = backoff_delays
              (world_of (bus_fail_then_ok 5 [0, 0, 0, 0, 0, 0, 0, 0, 0, 0, 0, 0])).trace + 5)
    ∧ ((∀ i, i < 5 →
        (measure
          (measure_attempt blank_record
            (world_of (bus_fail_then_ok 5 [0x66, 0x80, 0x12, 0x34])) i).1
          (measure_attempt blank_record
            (world_of (bus_fail_then_ok 5 [0x66, 0x80, 0x12, 0x34])) i).2).1 = -1)
      ∧ backoff_delays (measure_retry_measure_loop 0 blank_record
          (world_of (bus_fail_then_ok 5 [0x66, 0x80, 0x12, 0x34]))).2.2.trace
          = backoff_delays (world_of (bus_fail_then_ok 5 [0x66, 0x80, 0x12, 0x34])).trace + 5) :=
  ⟨⟨by decide,
    ((measure_retry_sixth_attempt blank_record
        (world_of (bus_fail_then_ok 5 [0, 0, 0, 0, 0, 0, 0, 0, 0, 0, 0, 0]))).1
      (by decide) (by decide)).2.2.1⟩,
   ⟨by decide,
    ((measure_retry_sixth_attempt blank_record
        (world_of (bus_fail_then_ok 5 [0x66, 0x80, 0x12, 0x34]))).2
      (by decide) (by decide)).2.2.1⟩⟩

/-- The first loop, entered with the counter at `count`, starts at most
`6 - count` fetches (and at least the one it always starts). -/
theorem coefficient_loop_invocations_le (n : Nat) :
    ∀ (count : Nat) (d : mpl115a2) (w : World), I2C_SLAVE_MAX_RETRY + 1 - count ≤ n →
      invocations (measure_retry_coefficient_loop count d w).2.2.trace
        ≤ invocations w.trace + max n 1 := by
  induction n with
  | zero =>
    intro count d w hn
    obtain ⟨f1, _⟩ := fetch_observations _ _ (get_coefficient_quiet d w)
    by_cases h : (get_coefficient d w).1 = -1
    · rw [coefficient_loop_exhausted count d w h (by omega), (printk_observations _ _).1, f1]
      simp
    · rw [coefficient_loop_success count d w h, f1]
      simp
  | succ n ih =>
    intro count d w hn
    obtain ⟨f1, _⟩ := fetch_observations _ _ (get_coefficient_quiet d w)
    by_cases h : (get_coefficient d w).1 = -1
    · by_cases hc : I2C_SLAVE_MAX_RETRY < count + 1
      · rw [coefficient_loop_exhausted count d w h hc, (printk_observations _ _).1, f1]
        simp only [le_max_iff, add_le_add_iff_left]; omega
      · rw [coefficient_loop_retry count d w h hc]
        have hb := ih (count + 1) (get_coefficient d w).2.1
          (usleep (printk (get_coefficient d w).2.2
            (Msg.coefficient_retry (count + 1) I2C_SLAVE_MAX_RETRY)) 1000000) (by omega)
        have hu : invocations (usleep (printk (get_coefficient d w).2.2
            (Msg.coefficient_retry (count + 1) I2C_SLAVE_MAX_RETRY)) 1000000).trace
            = invocations w.trace + 1 := by
          rw [← f1]
          simp [invocations, usleep, printk, World.emit, List.count_append]
        rw [hu] at hb
        have : max n 1 + 1 ≤ max (n + 1) 1 + 1 := by
          simp only [add_le_add_iff_right]; exact max_le_max (by omega) le_rfl
        have hn1 : 1 ≤ n := by unfold I2C_SLAVE_MAX_RETRY at hc hn; omega
        rw [max_eq_left hn1] at hb
        rw [max_eq_left (by omega : 1 ≤ n + 1)]
        omega
    · rw [coefficient_loop_success count d w h, f1]
      simp only [add_le_add_iff_left, le_max_iff]; omega

/-- The second loop, entered with the counter at `count`, starts at most
`6 - count` fetches (and at least the one it always starts). -/
theorem measure_loop_invocations_le (n : Nat) :
    ∀ (count : Nat) (d : mpl115a2) (w : World), I2C_SLAVE_MAX_RETRY + 1 - count ≤ n →
      invocations (measure_retry_measure_loop count d w).2.2.trace
        ≤ invocations w.trace + max n 1 := by
  induction n with
  | zero =>
    intro count d w hn
    obtain ⟨f1, _⟩ := fetch_observations _ _ (measure_quiet d w)
    by_cases h : (measure d w).1 = -1
    · rw [measure_loop_exhausted count d w h (by omega), (printk_observations _ _).1, f1]
      simp
    · rw [measure_loop_success count d w h, f1]
      simp
  | succ n ih =>
    intro count d w hn
    obtain ⟨f1, _⟩ := fetch_observations _ _ (measure_quiet d w)
    by_cases h : (measure d w).1 = -1
    · by_cases hc : I2C_SLAVE_MAX_RETRY < count + 1
      · rw [measure_loop_exhausted count d w h hc, (printk_observations _ _).1, f1]
        simp only [le_max_iff, add_le_add_iff_left]; omega
      · rw [measure_loop_retry count d w h hc]
        have hb := ih (count + 1) (measure d w).2.1
          (usleep (printk (measure d w).2.2
            (Msg.measure_retry (count + 1) I2C_SLAVE_MAX_RETRY)) 1000000) (by omega)
        have hu : invocations (usleep (printk (measure d w).2.2
            (Msg.measure_retry (count + 1) I2C_SLAVE_MAX_RETRY)) 1000000).trace
            = invocations w.trace + 1 := by
          rw [← f1]
          simp [invocations, usleep, printk, World.emit, List.count_append]
        rw [hu] at hb
        have hn1 : 1 ≤ n := by unfold I2C_SLAVE_MAX_RETRY at hc hn; omega
        rw [max_eq_left hn1] at hb
        rw [max_eq_left (by omega : 1 ≤ n + 1)]
        omega
    · rw [measure_loop_success count d w h, f1]
      simp only [add_le_add_iff_left, le_max_iff]; omega

/-- C10: in either loop of `measure_retry`, with the limit of 5 retries, a
fetch that fails on every invocation is invoked exactly 6 times, after which
the loop leaves the function with -1, so `measure_retry` returns -1; and on
every input each loop starts at most 6 fetches, so `measure_retry`, a total
function, starts at most 12 and never loops forever. -/
theorem measure_retry_exhausted (d : mpl115a2) (w : World) :
    ((∀ i, i < 6 →
          (get_coefficient (coefficient_attempt d w i).1 (coefficient_attempt d w i).2).1 = -1) →
        measure_retry d w
            = (-1,
                (get_coefficient (coefficient_attempt d w 5).1 (coefficient_attempt d w 5).2).2.1,
                printk
                  (get_coefficient (coefficient_attempt d w 5).1 (coefficient_attempt d w 5).2).2.2
                  Msg.coefficient_failed)
          ∧ invocations (measure_retry d w).2.2.trace = invocations w.trace + 6)
      ∧ ((∀ i, i < 6 → (measure (measure_attempt d w i).1 (measure_attempt d w i).2).1 = -1) →
        measure_retry_measure_loop 0 d w
            = (some (-1), (measure (measure_attempt d w 5).1 (measure_attempt d w 5).2).2.1,
                printk (measure (measure_attempt d w 5).1 (measure_attempt d w 5).2).2.2
                  Msg.measure_failed)
          ∧ invocations (measure_retry_measure_loop 0 d w).2.2.trace = invocations w.trace + 6
          ∧ ∀ (d0 : mpl115a2) (w0 : World),
              measure_retry_coefficient_loop 0 d0 w0 = (none, d, w) →
              measure_retry d0 w0
                = (-1, (measure (measure_attempt d w 5).1 (measure_attempt d w 5).2).2.1,
                    printk (measure (measure_attempt d w 5).1 (measure_attempt d w 5).2).2.2
                      Msg.measure_failed))
      ∧ invocations (measure_retry_coefficient_loop 0 d w).2.2.trace ≤ invocations w.trace + 6
      ∧ invocations (measure_retry_measure_loop 0 d w).2.2.trace ≤ invocations w.trace + 6
      ∧ invocations (measure_retry d w).2.2.trace ≤ invocations w.trace + 12 := by
  have hc6 : ∀ (d : mpl115a2) (w : World),
      invocations (measure_retry_coefficient_loop 0 d w).2.2.trace ≤ invocations w.trace + 6 :=
    fun d w => coefficient_loop_invocations_le 6 0 d w (by decide)
  have hm6 : ∀ (d : mpl115a2) (w : World),
      invocations (measure_retry_measure_loop 0 d w).2.2.trace ≤ invocations w.trace + 6 :=
    fun d w => measure_loop_invocations_le 6 0 d w (by decide)
  refine ⟨?_, ?_, hc6 d w, hm6 d w, ?_⟩
  · intro hfail
    have hloop := coefficient_loop_after_failures d w 5 (by decide)
      (fun i hi => hfail i (by omega))
    rw [coefficient_loop_exhausted 5 _ _ (hfail 5 (by decide)) (by decide)] at hloop
    have hmr : measure_retry d w
        = (-1,
            (get_coefficient (coefficient_attempt d w 5).1 (coefficient_attempt d w 5).2).2.1,
            printk
              (get_coefficient (coefficient_attempt d w 5).1 (coefficient_attempt d w 5).2).2.2
              Msg.coefficient_failed) := by
      simp only [measure_retry, hloop]
    obtain ⟨a1, _⟩ := coefficient_attempt_observations d w 5
    obtain ⟨f1, _⟩ := fetch_observations _ _
      (get_coefficient_quiet (coefficient_attempt d w 5).1 (coefficient_attempt d w 5).2)
    refine ⟨hmr, ?_⟩
    rw [hmr]; simp only []
    rw [(printk_observations _ _).1, f1, a1]
  · intro hfail
    have hloop := measure_loop_after_failures d w 5 (by decide)
      (fun i hi => hfail i (by omega))
    rw [measure_loop_exhausted 5 _ _ (hfail 5 (by decide)) (by decide)] at hloop
    obtain ⟨a1, _⟩ := measure_attempt_observations d w 5
    obtain ⟨f1, _⟩ := fetch_observations _ _
      (measure_quiet (measure_attempt d w 5).1 (measure_attempt d w 5).2)
    refine ⟨hloop, ?_, ?_⟩
    · rw [hloop]; simp only []
      rw [(printk_observations _ _).1, f1, a1]
    · intro d0 w0 h0
      simp only [measure_retry, h0, hloop]
  · have h1 := hc6 d w
    unfold measure_retry
    simp only
    rcases hcl : measure_retry_coefficient_loop 0 d w with ⟨r, d1, w1⟩
    rw [hcl] at h1
    simp only at h1
    cases r with
    | some v => simp only []; omega
    | none =>
      have h2 := hm6 d1 w1
      rcases hml : measure_retry_measure_loop 0 d1 w1 with ⟨r2, d2, w2⟩
      rw [hml] at h2
      simp only at h2
      cases r2 with
      | some v => simp only [hml]; omega
      | none => simp only [hml]; omega

/-- C10, at a bus whose calls all fail: every fetch fails at
`init_i2c_slave`. -/
theorem measure_retry_exhausted_witness :
    ((∀ i, i < 6 →
        (get_coefficient (coefficient_attempt blank_record (world_of bus_fail) i).1
          (coefficient_attempt blank_record (world_of bus_fail) i).2).1 = -1)
      ∧ (measure_retry blank_record (world_of bus_fail)).1 = -1
      ∧ invocations (measure_retry blank_record (world_of bus_fail)).2.2.trace
          = invocations (world_of bus_fail).trace + 6)
    ∧ ((∀ i, i < 6 →
        (measure (measure_attempt blank_record (world_of bus_fail) i).1
          (measure_attempt blank_record (world_of bus_fail) i).2).1 = -1)
      ∧ (measure_retry_measure_loop 0 blank_record (world_of bus_fail)).1 = some (-1)) :=
  ⟨⟨by decide,
    by rw [((measure_retry_exhausted blank_record (world_of bus_fail)).1 (by decide)).1],
    ((measure_retry_exhausted blank_record (world_of bus_fail)).1 (by decide)).2⟩,
   ⟨by decide,
    by rw [((measure_retry_exhausted blank_record (world_of bus_fail)).2.1 (by decide)).1]⟩⟩

/-- C4, at a block whose byte 13 alone is non-zero and a block that differs
from it in the bytes 0..11 only. -/
theorem check_coefficient_err_iff_witness :
    (check_coefficient_err
        { blank_record with register_data := fun i => if i.val < 12 then 7 else if i.val = 13 then 1 else 0 }
        (world_of bus_fail)).1
      = (check_coefficient_err
        { blank_record with register_data := fun i => if i.val = 13 then 1 else 0 }
        (world_of (bus_ok []))).1 :=
  (check_coefficient_err_iff
      { blank_record with register_data := fun i => if i.val = 13 then 1 else 0 }
      (world_of (bus_ok []))).2.2 _ _ (by decide)

/-! ## What the two transactions change and what they leave -/

theorem store_frame (buf : Fin 16 → Nat) (o n : Nat) (data : List Nat) (i : Fin 16)
    (h : i.val < o ∨ o + n ≤ i.val) : store buf o (data.take n) i = buf i := by
  unfold store
  split_ifs with ho
  · have hn : (data.take n).get? (i.val - o) = none := by
      rw [List.get?_eq_none]
      have := List.length_take_le n data
      omega
    rw [hn]
  · rfl

theorem check_coefficient_err_ret (d : mpl115a2) (w : World) :
    (check_coefficient_err d w).1 =
      if d.register_data 12 ≠ 0 ∨ d.register_data 13 ≠ 0 ∨
          d.register_data 14 ≠ 0 ∨ d.register_data 15 ≠ 0 then (-1 : Int) else 0 := by
  unfold check_coefficient_err
  split_ifs <;> rfl

theorem check_coefficient_err_pass (d : mpl115a2) (w : World)
    (h : ¬ (check_coefficient_err d w).1 = -1) :
    d.register_data 12 = 0 ∧ d.register_data 13 = 0 ∧ d.register_data 14 = 0
      ∧ d.register_data 15 = 0 := by
  rw [check_coefficient_err_ret] at h
  split_ifs at h with hc
  · exact absurd rfl h
  · simp only [ne_eq] at hc
    omega

theorem check_measure_err_world (d : mpl115a2) (w w2 : World) :
    (check_measure_err d w).1 = (check_measure_err d w2).1 := by
  unfold check_measure_err
  simp only
  split_ifs <;> rfl

/-- The return value of `get_coefficient` is 0 or -1. -/
theorem get_coefficient_ret (d : mpl115a2) (w : World) :
    (get_coefficient d w).1 = 0 ∨ (get_coefficient d w).1 = -1 := by
  unfold get_coefficient
  simp only
  split_ifs <;> simp

/-- The return value of `measure` is 0 or -1. -/
theorem measure_ret (d : mpl115a2) (w : World) :
    (measure d w).1 = 0 ∨ (measure d w).1 = -1 := by
  unfold measure
  simp only
  split_ifs <;> simp

/-- A `get_coefficient` leaves the measurement part and the terms. -/
theorem get_coefficient_frame (d : mpl115a2) (w : World) :
    same_measurement (get_coefficient d w).2.1 d ∧ same_terms (get_coefficient d w).2.1 d := by
  unfold get_coefficient same_measurement same_terms
  simp only
  split_ifs <;>
    exact ⟨⟨fun i hi => by first | rfl | exact store_frame _ 4 12 _ i (Or.inl hi), rfl, rfl⟩,
      rfl, rfl, rfl, rfl, rfl, rfl, rfl⟩

/-- A `measure` leaves the coefficient part and the terms. -/
theorem measure_frame (d : mpl115a2) (w : World) :
    same_coefficients (measure d w).2.1 d ∧ same_terms (measure d w).2.1 d := by
  unfold measure same_coefficients same_terms
  simp only
  split_ifs <;>
    exact ⟨⟨fun i hi => by first | rfl | exact store_frame _ 0 4 _ i (Or.inr (by omega)),
        rfl, rfl, rfl, rfl⟩,
      rfl, rfl, rfl, rfl, rfl, rfl, rfl⟩

/-- A failed `get_coefficient` leaves the coefficients. -/
theorem get_coefficient_failure (d : mpl115a2) (w : World)
    (h : (get_coefficient d w).1 = -1) :
    (get_coefficient d w).2.1.a0 = d.a0 ∧ (get_coefficient d w).2.1.b1 = d.b1
      ∧ (get_coefficient d w).2.1.b2 = d.b2 ∧ (get_coefficient d w).2.1.c12 = d.c12 := by
  unfold get_coefficient at h ⊢
  simp only at h ⊢
  split_ifs at h ⊢ <;> first | (exfalso; simp at h; done) | exact ⟨rfl, rfl, rfl, rfl⟩

/-- A failed `measure` leaves the counts. -/
theorem measure_failure (d : mpl115a2) (w : World) (h : (measure d w).1 = -1) :
    (measure d w).2.1.padc = d.padc ∧ (measure d w).2.1.tadc = d.tadc := by
  unfold measure at h ⊢
  simp only at h ⊢
  split_ifs at h ⊢ <;> first | (exfalso; simp at h; done) | exact ⟨rfl, rfl⟩

/-- After a successful `get_coefficient` the padding bytes 12..15 are zero. -/
theorem get_coefficient_success_padding (d : mpl115a2) (w : World)
    (h : (get_coefficient d w).1 = 0) :
    (get_coefficient d w).2.1.register_data 12 = 0
      ∧ (get_coefficient d w).2.1.register_data 13 = 0
      ∧ (get_coefficient d w).2.1.register_data 14 = 0
      ∧ (get_coefficient d w).2.1.register_data 15 = 0 := by
  unfold get_coefficient at h ⊢
  simp only at h ⊢
  split_ifs at h ⊢ with h1 h2 h3 h4 h5 h6 <;>
    first | (exfalso; simp at h; done) | exact check_coefficient_err_pass _ _ h6

/-- After a successful `measure` the bytes 0..3 pass `check_measure_err`. -/
theorem measure_success_check (d : mpl115a2) (w w2 : World) (h : (measure d w).1 = 0) :
    (check_measure_err (measure d w).2.1 w2).1 = 0 := by
  have hr : ∀ x : mpl115a2, ∀ u : World, ¬ (check_measure_err x u).1 = -1 →
      (check_measure_err x w2).1 = 0 := by
    intro x u hx
    rw [check_measure_err_world x w2 u]
    unfold check_measure_err at hx ⊢
    simp only at hx ⊢
    split_ifs at hx ⊢ <;> first | rfl | exact absurd rfl hx
  unfold measure at h ⊢
  simp only at h ⊢
  split_ifs at h ⊢ with h1 h2 h3 h4 h5 h6 h7 <;>
    first | (exfalso; simp at h; done) | exact hr _ _ h7

/-! ## The retry loops as a whole -/

/-- The record the first loop ends with is the record of its last
`get_coefficient`, started on a record that keeps every property `P` that
`get_coefficient` keeps; the loop ends normally exactly when that last
invocation succeeded. -/
theorem coefficient_loop_last (P : mpl115a2 → Prop)
    (hstep : ∀ d w, P d → P (get_coefficient d w).2.1) (n : Nat) :
    ∀ (count : Nat) (d : mpl115a2) (w : World), I2C_SLAVE_MAX_RETRY + 1 - count ≤ n → P d →
      ∃ d2 w2, P d2
        ∧ (measure_retry_coefficient_loop count d w).2.1 = (get_coefficient d2 w2).2.1
        ∧ (((measure_retry_coefficient_loop count d w).1 = none
              ∧ (get_coefficient d2 w2).1 ≠ -1)
            ∨ ((measure_retry_coefficient_loop count d w).1 = some (-1)
              ∧ (get_coefficient d2 w2).1 = -1)) := by
  induction n with
  | zero =>
    intro count d w hn hP
    by_cases h : (get_coefficient d w).1 = -1
    · rw [coefficient_loop_exhausted count d w h (by omega)]
      exact ⟨d, w, hP, rfl, Or.inr ⟨rfl, h⟩⟩
    · rw [coefficient_loop_success count d w h]
      exact ⟨d, w, hP, rfl, Or.inl ⟨rfl, h⟩⟩
  | succ n ih =>
    intro count d w hn hP
    by_cases h : (get_coefficient d w).1 = -1
    · by_cases hc : I2C_SLAVE_MAX_RETRY < count + 1
      · rw [coefficient_loop_exhausted count d w h hc]
        exact ⟨d, w, hP, rfl, Or.inr ⟨rfl, h⟩⟩
      · rw [coefficient_loop_retry count d w h hc]
        exact ih (count + 1) _ _ (by omega) (hstep d w hP)
    · rw [coefficient_loop_success count d w h]
      exact ⟨d, w, hP, rfl, Or.inl ⟨rfl, h⟩⟩

/-- The record the second loop ends with is the record of its last `measure`,
started on a record that keeps every property `P` that `measure` keeps; the
loop ends normally exactly when that last invocation succeeded. -/
theorem measure_loop_last (P : mpl115a2 → Prop)
    (hstep : ∀ d w, P d → P (measure d w).2.1) (n : Nat) :
    ∀ (count : Nat) (d : mpl115a2) (w : World), I2C_SLAVE_MAX_RETRY + 1 - count ≤ n → P d →
      ∃ d2 w2, P d2
        ∧ (measure_retry_measure_loop count d w).2.1 = (measure d2 w2).2.1
        ∧ (((measure_retry_measure_loop count d w).1 = none ∧ (measure d2 w2).1 ≠ -1)
            ∨ ((measure_retry_measure_loop count d w).1 = some (-1)
              ∧ (measure d2 w2).1 = -1)) := by
  induction n with
  | zero =>
    intro count d w hn hP
    by_cases h : (measure d w).1 = -1
    · rw [measure_loop_exhausted count d w h (by omega)]
      exact ⟨d, w, hP, rfl, Or.inr ⟨rfl, h⟩⟩
    · rw [measure_loop_success count d w h]
      exact ⟨d, w, hP, rfl, Or.inl ⟨rfl, h⟩⟩
  | succ n ih =>
    intro count d w hn hP
    by_cases h : (measure d w).1 = -1
    · by_cases hc : I2C_SLAVE_MAX_RETRY < count + 1
      · rw [measure_loop_exhausted count d w h hc]
        exact ⟨d, w, hP, rfl, Or.inr ⟨rfl, h⟩⟩
      · rw [measure_loop_retry count d w h hc]
        exact ih (count + 1) _ _ (by omega) (hstep d w hP)
    · rw [measure_loop_success count d w h]
      exact ⟨d, w, hP, rfl, Or.inl ⟨rfl, h⟩⟩

theorem same_measurement_refl (d : mpl115a2) : same_measurement d d :=
  ⟨fun _ _ => rfl, rfl, rfl⟩

theorem same_coefficients_refl (d : mpl115a2) : same_coefficients d d :=
  ⟨fun _ _ => rfl, rfl, rfl, rfl, rfl⟩

theorem same_terms_refl (d : mpl115a2) : same_terms d d :=
  ⟨rfl, rfl, rfl, rfl, rfl, rfl, rfl⟩

theorem same_measurement_trans {a b c : mpl115a2} (h1 : same_measurement a b)
    (h2 : same_measurement b c) : same_measurement a c :=
  ⟨fun i hi => (h1.1 i hi).trans (h2.1 i hi), h1.2.1.trans h2.2.1, h1.2.2.trans h2.2.2⟩

theorem same_coefficients_trans {a b c : mpl115a2} (h1 : same_coefficients a b)
    (h2 : same_coefficients b c) : same_coefficients a c :=
  ⟨fun i hi => (h1.1 i hi).trans (h2.1 i hi), h1.2.1.trans h2.2.1,
    h1.2.2.1.trans h2.2.2.1, h1.2.2.2.1.trans h2.2.2.2.1, h1.2.2.2.2.trans h2.2.2.2.2⟩

theorem same_terms_trans {a b c : mpl115a2} (h1 : same_terms a b) (h2 : same_terms b c) :
    same_terms a c :=
  ⟨h1.1.trans h2.1, h1.2.1.trans h2.2.1, h1.2.2.1.trans h2.2.2.1,
    h1.2.2.2.1.trans h2.2.2.2.1, h1.2.2.2.2.1.trans h2.2.2.2.2.1,
    h1.2.2.2.2.2.1.trans h2.2.2.2.2.2.1, h1.2.2.2.2.2.2.trans h2.2.2.2.2.2.2⟩

/-- The first loop leaves the measurement part and the terms, keeps the bytes
in range, and when it ends normally the padding bytes are zero and the
coefficients are the decodings of the bytes 4..11. -/
theorem coefficient_loop_summary (d : mpl115a2) (w : World) :
    same_measurement (measure_retry_coefficient_loop 0 d w).2.1 d
      ∧ same_terms (measure_retry_coefficient_loop 0 d w).2.1 d
      ∧ (bytes_ok d → bytes_ok (measure_retry_coefficient_loop 0 d w).2.1)
      ∧ ((measure_retry_coefficient_loop 0 d w).1 = none
          ∨ (measure_retry_coefficient_loop 0 d w).1 = some (-1))
      ∧ ((measure_retry_coefficient_loop 0 d w).1 = none →
          ((measure_retry_coefficient_loop 0 d w).2.1.register_data 12 = 0
            ∧ (measure_retry_coefficient_loop 0 d w).2.1.register_data 13 = 0
            ∧ (measure_retry_coefficient_loop 0 d w).2.1.register_data 14 = 0
            ∧ (measure_retry_coefficient_loop 0 d w).2.1.register_data 15 = 0)
          ∧ (measure_retry_coefficient_loop 0 d w).2.1.a0
              = (convert_coefficient
                  ((measure_retry_coefficient_loop 0 d w).2.1.register_data 4)
                  ((measure_retry_coefficient_loop 0 d w).2.1.register_data 5) 16 3 0).getD 0
          ∧ (measure_retry_coefficient_loop 0 d w).2.1.b1
              = (convert_coefficient
                  ((measure_retry_coefficient_loop 0 d w).2.1.register_data 6)
                  ((measure_retry_coefficient_loop 0 d w).2.1.register_data 7) 16 13 0).getD 0
          ∧ (measure_retry_coefficient_loop 0 d w).2.1.b2
              = (convert_coefficient
                  ((measure_retry_coefficient_loop 0 d w).2.1.register_data 8)
                  ((measure_retry_coefficient_loop 0 d w).2.1.register_data 9) 16 14 0).getD 0
          ∧ (measure_retry_coefficient_loop 0 d w).2.1.c12
              = (convert_coefficient
                  ((measure_retry_coefficient_loop 0 d w).2.1.register_data 10)
                  ((measure_retry_coefficient_loop 0 d w).2.1.register_data 11) 14 13 9).getD 0) := by
  obtain ⟨d2, w2, ⟨hm, ht, hb⟩, hrec, hcase⟩ := coefficient_loop_last
    (fun x => same_measurement x d ∧ same_terms x d ∧ (bytes_ok d → bytes_ok x))
    (fun x u hx => ⟨same_measurement_trans (get_coefficient_frame x u).1 hx.1,
      same_terms_trans (get_coefficient_frame x u).2 hx.2.1,
      fun hd => get_coefficient_bytes_ok x u (hx.2.2 hd)⟩)
    6 0 d w (by decide) ⟨same_measurement_refl d, same_terms_refl d, fun h => h⟩
  rw [hrec]
  refine ⟨same_measurement_trans (get_coefficient_frame d2 w2).1 hm,
    same_terms_trans (get_coefficient_frame d2 w2).2 ht,
    fun hd => get_coefficient_bytes_ok d2 w2 (hb hd), ?_, ?_⟩
  · rcases hcase with h | h
    · exact Or.inl h.1
    · exact Or.inr h.1
  · intro hnone
    rcases hcase with h | h
    · have h0 : (get_coefficient d2 w2).1 = 0 := by
        rcases get_coefficient_ret d2 w2 with h0 | h0
        · exact h0
        · exact absurd h0 h.2
      exact ⟨get_coefficient_success_padding d2 w2 h0, get_coefficient_success d2 w2 h0⟩
    · rw [h.1] at hnone
      exact Option.noConfusion hnone

/-- The second loop leaves the coefficient part and the terms, keeps the
bytes in range, and when it ends normally the bytes 0..3 pass
`check_measure_err` and the counts are those of the bytes 0..3; when it does
not, the counts are those it started with. -/
theorem measure_loop_summary (d : mpl115a2) (w : World) :
    same_coefficients (measure_retry_measure_loop 0 d w).2.1 d
      ∧ same_terms (measure_retry_measure_loop 0 d w).2.1 d
      ∧ (bytes_ok d → bytes_ok (measure_retry_measure_loop 0 d w).2.1)
      ∧ ((measure_retry_measure_loop 0 d w).1 = none
          ∨ (measure_retry_measure_loop 0 d w).1 = some (-1))
      ∧ ((measure_retry_measure_loop 0 d w).1 = none →
          (∀ w3 : World, (check_measure_err (measure_retry_measure_loop 0 d w).2.1 w3).1 = 0)
          ∧ (measure_retry_measure_loop 0 d w).2.1.padc
              = ((((measure_retry_measure_loop 0 d w).2.1.register_data 0 <<< 8 |||
                  (measure_retry_measure_loop 0 d w).2.1.register_data 1) >>> 6 : Nat) : Int)
          ∧ (measure_retry_measure_loop 0 d w).2.1.tadc
              = ((((measure_retry_measure_loop 0 d w).2.1.register_data 2 <<< 8 |||
                  (measure_retry_measure_loop 0 d w).2.1.register_data 3) >>> 6 : Nat) : Int)) := by
  obtain ⟨d2, w2, ⟨hm, ht, hb⟩, hrec, hcase⟩ := measure_loop_last
    (fun x => same_coefficients x d ∧ same_terms x d ∧ (bytes_ok d → bytes_ok x))
    (fun x u hx => ⟨same_coefficients_trans (measure_frame x u).1 hx.1,
      same_terms_trans (measure_frame x u).2 hx.2.1,
      fun hd => measure_bytes_ok x u (hx.2.2 hd)⟩)
    6 0 d w (by decide) ⟨same_coefficients_refl d, same_terms_refl d, fun h => h⟩
  rw [hrec]
  refine ⟨same_coefficients_trans (measure_frame d2 w2).1 hm,
    same_terms_trans (measure_frame d2 w2).2 ht,
    fun hd => measure_bytes_ok d2 w2 (hb hd), ?_, ?_⟩
  · rcases hcase with h | h
    · exact Or.inl h.1
    · exact Or.inr h.1
  · intro hnone
    rcases hcase with h | h
    · have h0 : (measure d2 w2).1 = 0 := by
        rcases measure_ret d2 w2 with h0 | h0
        · exact h0
        · exact absurd h0 h.2
      exact ⟨fun w3 => measure_success_check d2 w2 w3 h0, measure_success d2 w2 h0⟩
    · rw [h.1] at hnone
      exact Option.noConfusion hnone

/-! ## Independent retry budgets: claim C11 -/

/-- The run of `measure_retry` in which the coefficient fetch succeeds at its
invocation `j + 1` and the measurement fetch at its invocation `k + 1`, both
within the limit. -/
theorem measure_retry_of_attempts (d : mpl115a2) (w : World) (j k : Nat)
    (hj : j ≤ I2C_SLAVE_MAX_RETRY) (hk : k ≤ I2C_SLAVE_MAX_RETRY)
    (hcf : ∀ i, i < j →
      (get_coefficient (coefficient_attempt d w i).1 (coefficient_attempt d w i).2).1 = -1)
    (hcs : (get_coefficient (coefficient_attempt d w j).1 (coefficient_attempt d w j).2).1 = 0)
    (hmf : ∀ i, i < k →
      (measure
        (measure_attempt
          (get_coefficient (coefficient_attempt d w j).1 (coefficient_attempt d w j).2).2.1
          (get_coefficient (coefficient_attempt d w j).1 (coefficient_attempt d w j).2).2.2 i).1
        (measure_attempt
          (get_coefficient (coefficient_attempt d w j).1 (coefficient_attempt d w j).2).2.1
          (get_coefficient (coefficient_attempt d w j).1 (coefficient_attempt d w j).2).2.2 i).2).1
        = -1)
    (hms :
      (measure
        (measure_attempt
          (get_coefficient (coefficient_attempt d w j).1 (coefficient_attempt d w j).2).2.1
          (get_coefficient (coefficient_attempt d w j).1 (coefficient_attempt d w j).2).2.2 k).1
        (measure_attempt
          (get_coefficient (coefficient_attempt d w j).1 (coefficient_attempt d w j).2).2.1
          (get_coefficient (coefficient_attempt d w j).1 (coefficient_attempt d w j).2).2.2 k).2).1
        = 0) :
    measure_retry d w
      = (0,
          calc_pressure
            (measure
              (measure_attempt
                (get_coefficient (coefficient_attempt d w j).1 (coefficient_attempt d w j).2).2.1
                (get_coefficient (coefficient_attempt d w j).1 (coefficient_attempt d w j).2).2.2
                k).1
              (measure_attempt
                (get_coefficient (coefficient_attempt d w j).1 (coefficient_attempt d w j).2).2.1
                (get_coefficient (coefficient_attempt d w j).1 (coefficient_attempt d w j).2).2.2
                k).2).2.1,
          (measure
              (measure_attempt
                (get_coefficient (coefficient_attempt d w j).1 (coefficient_attempt d w j).2).2.1
                (get_coefficient (coefficient_attempt d w j).1 (coefficient_attempt d w j).2).2.2
                k).1
              (measure_attempt
                (get_coefficient (coefficient_attempt d w j).1 (coefficient_attempt d w j).2).2.1
                (get_coefficient (coefficient_attempt d w j).1 (coefficient_attempt d w j).2).2.2
                k).2).2.2) := by
  have hc := coefficient_loop_after_failures d w j hj hcf
  rw [coefficient_loop_success j _ _ (by rw [hcs]; decide)] at hc
  have hm := measure_loop_after_failures _ _ k hk hmf
  rw [measure_loop_success k _ _ (by rw [hms]; decide)] at hm
  simp only [measure_retry, hc, hm]

/-- C11: the retry budgets of the two loops of `measure_retry` are
independent: for every number `j` in 0..5 of failed coefficient fetches
followed by a success, and every number `k` in 0..5 of failed measurement
fetches followed by a success, `measure_retry` returns 0, and the retry
notices of the measurement loop are numbered 1..k whatever `j` was. -/
theorem measure_retry_budgets_independent (d : mpl115a2) (w : World) (j k : Nat)
    (hj : j ≤ 5) (hk : k ≤ 5)
    (hcf : ∀ i, i < j →
      (get_coefficient (coefficient_attempt d w i).1 (coefficient_attempt d w i).2).1 = -1)
    (hcs : (get_coefficient (coefficient_attempt d w j).1 (coefficient_attempt d w j).2).1 = 0)
    (hmf : ∀ i, i < k →
      (measure
        (measure_attempt
          (get_coefficient (coefficient_attempt d w j).1 (coefficient_attempt d w j).2).2.1
          (get_coefficient (coefficient_attempt d w j).1 (coefficient_attempt d w j).2).2.2 i).1
        (measure_attempt
          (get_coefficient (coefficient_attempt d w j).1 (coefficient_attempt d w j).2).2.1
          (get_coefficient (coefficient_attempt d w j).1 (coefficient_attempt d w j).2).2.2 i).2).1
        = -1)
    (hms :
      (measure
        (measure_attempt
          (get_coefficient (coefficient_attempt d w j).1 (coefficient_attempt d w j).2).2.1
          (get_coefficient (coefficient_attempt d w j).1 (coefficient_attempt d w j).2).2.2 k).1
        (measure_attempt
          (get_coefficient (coefficient_attempt d w j).1 (coefficient_attempt d w j).2).2.1
          (get_coefficient (coefficient_attempt d w j).1 (coefficient_attempt d w j).2).2.2 k).2).1
        = 0) :
    (measure_retry d w).1 = 0
      ∧ coefficient_retries (measure_retry d w).2.2.trace
          = coefficient_retries w.trace ++ List.range' 1 j
      ∧ measure_retries (measure_retry d w).2.2.trace
          = measure_retries w.trace ++ List.range' 1 k
      ∧ backoff_delays (measure_retry d w).2.2.trace = backoff_delays w.trace + j + k
      ∧ invocations (measure_retry d w).2.2.trace = invocations w.trace + (j + 1) + (k + 1) := by
  have hrun := measure_retry_of_attempts d w j k hj hk hcf hcs hmf hms
  obtain ⟨a1, a2, a3, a4⟩ := coefficient_attempt_observations d w j
  obtain ⟨f1, f2, f3, f4⟩ := fetch_observations _ _
    (get_coefficient_quiet (coefficient_attempt d w j).1 (coefficient_attempt d w j).2)
  obtain ⟨b1, b2, b3, b4⟩ := measure_attempt_observations
    (get_coefficient (coefficient_attempt d w j).1 (coefficient_attempt d w j).2).2.1
    (get_coefficient (coefficient_attempt d w j).1 (coefficient_attempt d w j).2).2.2 k
  obtain ⟨g1, g2, g3, g4⟩ := fetch_observations _ _
    (measure_quiet
      (measure_attempt
        (get_coefficient (coefficient_attempt d w j).1 (coefficient_attempt d w j).2).2.1
        (get_coefficient (coefficient_attempt d w j).1 (coefficient_attempt d w j).2).2.2 k).1
      (measure_attempt
        (get_coefficient (coefficient_attempt d w j).1 (coefficient_attempt d w j).2).2.1
        (get_coefficient (coefficient_attempt d w j).1 (coefficient_attempt d w j).2).2.2 k).2)
  rw [hrun]
  refine ⟨rfl, ?_, ?_, ?_, ?_⟩
  · simp only []; rw [g3, b4, f3, a3]
  · simp only []; rw [g4, b3, f4, a4]
  · simp only []; rw [g2, b2, f2, a2]
  · simp only []; rw [g1, b1, f1, a1]; omega

/-- C11, at a bus on which 5 coefficient fetches fail, the 6th succeeds, 5
measurement fetches fail and the 6th succeeds. -/
theorem measure_retry_budgets_independent_witness :
    (measure_retry blank_record
        (world_of (bus_fail_twice [0x66, 0x80, 0x7e, 0xc0, 0, 0, 0, 0, 0, 0, 0, 0]))).1 = 0
      ∧ measure_retries
          (measure_retry blank_record
            (world_of (bus_fail_twice [0x66, 0x80, 0x7e, 0xc0, 0, 0, 0, 0, 0, 0, 0, 0]))).2.2.trace
          = measure_retries
              (world_of (bus_fail_twice [0x66, 0x80, 0x7e, 0xc0, 0, 0, 0, 0, 0, 0, 0, 0])).trace
            ++ List.range' 1 5 :=
  ⟨(measure_retry_budgets_independent blank_record
      (world_of (bus_fail_twice [0x66, 0x80, 0x7e, 0xc0, 0, 0, 0, 0, 0, 0, 0, 0])) 5 5
      (by decide) (by decide) (by decide) (by decide) (by decide) (by decide)).1,
   (measure_retry_budgets_independent blank_record
      (world_of (bus_fail_twice [0x66, 0x80, 0x7e, 0xc0, 0, 0, 0, 0, 0, 0, 0, 0])) 5 5
      (by decide) (by decide) (by decide) (by decide) (by decide) (by decide)).2.2.1⟩

/-! ## The end-to-end scenario and the range of the counts: claims C12, C13, C14 -/

/-- The coefficients a successful `get_coefficient` stored, as signed 16-bit
words over powers of two. -/
theorem get_coefficient_values (d : mpl115a2) (w : World) (hd : bytes_ok d)
    (hret : (get_coefficient d w).1 = 0) :
    (get_coefficient d w).2.1.a0
        = (signed16 ((get_coefficient d w).2.1.register_data 4 * 256 +
            (get_coefficient d w).2.1.register_data 5) : ℚ) / 2 ^ 3
      ∧ (get_coefficient d w).2.1.b1
        = (signed16 ((get_coefficient d w).2.1.register_data 6 * 256 +
            (get_coefficient d w).2.1.register_data 7) : ℚ) / 2 ^ 13
      ∧ (get_coefficient d w).2.1.b2
        = (signed16 ((get_coefficient d w).2.1.register_data 8 * 256 +
            (get_coefficient d w).2.1.register_data 9) : ℚ) / 2 ^ 14
      ∧ (get_coefficient d w).2.1.c12
        = (signed16 ((get_coefficient d w).2.1.register_data 10 * 256 +
            (get_coefficient d w).2.1.register_data 11) : ℚ) / 2 ^ 24 := by
  obtain ⟨ha0, hb1, hb2, hc12⟩ := get_coefficient_success d w hret
  have hb := get_coefficient_bytes_ok d w hd
  rw [convert_coefficient_eq _ _ 16 3 0 3 (hb 4) (hb 5) (by decide) (by decide)] at ha0
  rw [convert_coefficient_eq _ _ 16 13 0 13 (hb 6) (hb 7) (by decide) (by decide)] at hb1
  rw [convert_coefficient_eq _ _ 16 14 0 14 (hb 8) (hb 9) (by decide) (by decide)] at hb2
  rw [convert_coefficient_eq _ _ 14 13 9 24 (hb 10) (hb 11) (by decide) (by decide)] at hc12
  exact ⟨ha0, hb1, hb2, hc12⟩

/-- The coefficients that `get_coefficient` decodes from the bytes of the
scenario. -/
theorem scenario_coefficients :
    (get_coefficient blank_record (world_of (bus_ok scenario_coefficient_bytes))).1 = 0
      ∧ (get_coefficient blank_record (world_of (bus_ok scenario_coefficient_bytes))).2.1.a0
          = 8039 / 4
      ∧ (get_coefficient blank_record (world_of (bus_ok scenario_coefficient_bytes))).2.1.b1
          = -19463 / 8192
      ∧ (get_coefficient blank_record (world_of (bus_ok scenario_coefficient_bytes))).2.1.b2
          = -15081 / 16384
      ∧ (get_coefficient blank_record (world_of (bus_ok scenario_coefficient_bytes))).2.1.c12
          = 1657 / 2097152 := by
  have hret : (get_coefficient blank_record
      (world_of (bus_ok scenario_coefficient_bytes))).1 = 0 := by decide
  obtain ⟨h0, h1, h2, h3⟩ := get_coefficient_values blank_record
    (world_of (bus_ok scenario_coefficient_bytes)) (by decide) hret
  have e4 : (get_coefficient blank_record
      (world_of (bus_ok scenario_coefficient_bytes))).2.1.register_data 4 = 0x3e := by decide
  have e5 : (get_coefficient blank_record
      (world_of (bus_ok scenario_coefficient_bytes))).2.1.register_data 5 = 0xce := by decide
  have e6 : (get_coefficient blank_record
      (world_of (bus_ok scenario_coefficient_bytes))).2.1.register_data 6 = 0xb3 := by decide
  have e7 : (get_coefficient blank_record
      (world_of (bus_ok scenario_coefficient_bytes))).2.1.register_data 7 = 0xf9 := by decide
  have e8 : (get_coefficient blank_record
      (world_of (bus_ok scenario_coefficient_bytes))).2.1.register_data 8 = 0xc5 := by decide
  have e9 : (get_coefficient blank_record
      (world_of (bus_ok scenario_coefficient_bytes))).2.1.register_data 9 = 0x17 := by decide
  have e10 : (get_coefficient blank_record
      (world_of (bus_ok scenario_coefficient_bytes))).2.1.register_data 10 = 0x33 := by decide
  have e11 : (get_coefficient blank_record
      (world_of (bus_ok scenario_coefficient_bytes))).2.1.register_data 11 = 0xc8 := by decide
  rw [e4, e5] at h0
  rw [e6, e7] at h1
  rw [e8, e9] at h2
  rw [e10, e11] at h3
  refine ⟨hret, ?_, ?_, ?_, ?_⟩
  · rw [h0]; norm_num [signed16]
  · rw [h1]; norm_num [signed16]
  · rw [h2]; norm_num [signed16]
  · rw [h3]; norm_num [signed16]

/-- C12 as stated fails: `get_coefficient` succeeds on the bytes
`3e ce b3 f9 c5 17 33 c8` with zero padding, and the stored `a0` is more than
2000 away from 2.0, `b1` more than 2 away from -0.00177 and `b2` more than
0.9 away from -0.000573. -/
theorem scenario_coefficients_not_as_stated :
    (get_coefficient blank_record (world_of (bus_ok scenario_coefficient_bytes))).1 = 0
      ∧ 2000 < |(get_coefficient blank_record
          (world_of (bus_ok scenario_coefficient_bytes))).2.1.a0 - 2.0|
      ∧ 2 < |(get_coefficient blank_record
          (world_of (bus_ok scenario_coefficient_bytes))).2.1.b1 - (-0.00177)|
      ∧ 0.9 < |(get_coefficient blank_record
          (world_of (bus_ok scenario_coefficient_bytes))).2.1.b2 - (-0.000573)| := by
  obtain ⟨hret, h0, h1, h2, _⟩ := scenario_coefficients
  refine ⟨hret, ?_, ?_, ?_⟩
  · rw [h0]; norm_num [abs_of_pos]
  · rw [h1]; norm_num [abs_of_neg]
  · rw [h2]; norm_num [abs_of_neg]

/-- C12, amended: decoding the coefficient bytes `3e ce b3 f9 c5 17 33 c8`
with zero padding, by the layouts `get_coefficient` uses, yields
`a0 = 2009.75`, `b1 = -19463/8192`, about -2.37585, and
`b2 = -15081/16384`, about -0.92047. -/
theorem scenario_coefficients_decoded :
    (get_coefficient blank_record (world_of (bus_ok scenario_coefficient_bytes))).1 = 0
      ∧ (get_coefficient blank_record (world_of (bus_ok scenario_coefficient_bytes))).2.1.a0
          = 2009.75
      ∧ (get_coefficient blank_record (world_of (bus_ok scenario_coefficient_bytes))).2.1.b1
          = -19463 / 8192
      ∧ |(get_coefficient blank_record (world_of (bus_ok scenario_coefficient_bytes))).2.1.b1
          - (-2.37585)| < 0.00001
      ∧ (get_coefficient blank_record (world_of (bus_ok scenario_coefficient_bytes))).2.1.b2
          = -15081 / 16384
      ∧ |(get_coefficient blank_record (world_of (bus_ok scenario_coefficient_bytes))).2.1.b2
          - (-0.92047)| < 0.00001 := by
  obtain ⟨hret, h0, h1, h2, _⟩ := scenario_coefficients
  refine ⟨hret, ?_, h1, ?_, h2, ?_⟩
  · rw [h0]; norm_num
  · rw [h1, abs_lt]; constructor <;> norm_num
  · rw [h2, abs_lt]; constructor <;> norm_num

/-- C13 as stated fails: `measure` succeeds on the bytes `66 80 7e c0` and
stores `tadc = 507`, not 501. -/
theorem scenario_tadc_not_501 :
    (measure blank_record (world_of (bus_ok scenario_measurement_bytes))).1 = 0
      ∧ (measure blank_record (world_of (bus_ok scenario_measurement_bytes))).2.1.tadc = 507
      ∧ (measure blank_record (world_of (bus_ok scenario_measurement_bytes))).2.1.tadc ≠ 501 := by
  decide

/-- The counts a successful `measure` stored, as quotients by 64. -/
theorem measure_values (d : mpl115a2) (w : World) (hd : bytes_ok d)
    (hret : (measure d w).1 = 0) :
    (measure d w).2.1.padc
        = ((((measure d w).2.1.register_data 0 * 256 +
              (measure d w).2.1.register_data 1) / 64 : Nat) : Int)
      ∧ (measure d w).2.1.tadc
        = ((((measure d w).2.1.register_data 2 * 256 +
              (measure d w).2.1.register_data 3) / 64 : Nat) : Int) := by
  obtain ⟨hp, ht⟩ := measure_success d w hret
  have hb := measure_bytes_ok d w hd
  rw [shl8_or _ _ (hb 1), Nat.shiftRight_eq_div_pow] at hp
  rw [shl8_or _ _ (hb 3), Nat.shiftRight_eq_div_pow] at ht
  exact ⟨hp, ht⟩

/-- C13, amended: decoding the measurement bytes `66 80 7e c0` by the 10-bit
right shift that `measure` uses yields `padc = 410` and `tadc = 507`. -/
theorem scenario_counts :
    (measure blank_record (world_of (bus_ok scenario_measurement_bytes))).1 = 0
      ∧ (measure blank_record (world_of (bus_ok scenario_measurement_bytes))).2.1.register_data 0
          = 0x66
      ∧ (measure blank_record (world_of (bus_ok scenario_measurement_bytes))).2.1.register_data 1
          = 0x80
      ∧ (measure blank_record (world_of (bus_ok scenario_measurement_bytes))).2.1.register_data 2
          = 0x7e
      ∧ (measure blank_record (world_of (bus_ok scenario_measurement_bytes))).2.1.register_data 3
          = 0xc0
      ∧ (measure blank_record (world_of (bus_ok scenario_measurement_bytes))).2.1.padc = 410
      ∧ (measure blank_record (world_of (bus_ok scenario_measurement_bytes))).2.1.tadc = 507 := by
  have hret : (measure blank_record (world_of (bus_ok scenario_measurement_bytes))).1 = 0 := by
    decide
  obtain ⟨hp, ht⟩ := measure_values blank_record
    (world_of (bus_ok scenario_measurement_bytes)) (by decide) hret
  have e0 : (measure blank_record
      (world_of (bus_ok scenario_measurement_bytes))).2.1.register_data 0 = 0x66 := by decide
  have e1 : (measure blank_record
      (world_of (bus_ok scenario_measurement_bytes))).2.1.register_data 1 = 0x80 := by decide
  have e2 : (measure blank_record
      (world_of (bus_ok scenario_measurement_bytes))).2.1.register_data 2 = 0x7e := by decide
  have e3 : (measure blank_record
      (world_of (bus_ok scenario_measurement_bytes))).2.1.register_data 3 = 0xc0 := by decide
  rw [e0, e1] at hp
  rw [e2, e3] at ht
  exact ⟨hret, e0, e1, e2, e3, hp, ht⟩

/-- C14: after every successful `measure` on a record of bytes, `padc` and
`tadc` are 10-bit unsigned values: `0 <= padc <= 1023` and
`0 <= tadc <= 1023`. -/
theorem measure_counts_ten_bit (d : mpl115a2) (w : World) (hd : bytes_ok d)
    (hret : (measure d w).1 = 0) :
    (0 ≤ (measure d w).2.1.padc ∧ (measure d w).2.1.padc ≤ 1023)
      ∧ (0 ≤ (measure d w).2.1.tadc ∧ (measure d w).2.1.tadc ≤ 1023) := by
  obtain ⟨hp, ht⟩ := measure_values d w hd hret
  have hb := measure_bytes_ok d w hd
  have h0 := hb 0
  have h1 := hb 1
  have h2 := hb 2
  have h3 := hb 3
  rw [hp, ht]
  refine ⟨⟨Int.natCast_nonneg _, ?_⟩, ⟨Int.natCast_nonneg _, ?_⟩⟩
  · have : ((measure d w).2.1.register_data 0 * 256 +
        (measure d w).2.1.register_data 1) / 64 ≤ 1023 := by omega
    exact_mod_cast this
  · have : ((measure d w).2.1.register_data 2 * 256 +
        (measure d w).2.1.register_data 3) / 64 ≤ 1023 := by omega
    exact_mod_cast this

/-- C14, at a bus that delivers the bytes `ff fe ff fe`, the largest counts a
successful `measure` can store. -/
theorem measure_counts_ten_bit_witness :
    (measure blank_record (world_of (bus_ok [0xff, 0xfe, 0xff, 0xfe]))).1 = 0
      ∧ (measure blank_record (world_of (bus_ok [0xff, 0xfe, 0xff, 0xfe]))).2.1.padc ≤ 1023 :=
  ⟨by decide,
   (measure_counts_ten_bit blank_record (world_of (bus_ok [0xff, 0xfe, 0xff, 0xfe]))
      (by decide) (by decide)).1.2⟩

/-! ## Purity of the formula and late writes: claims C15, C16 -/

/-- C15: `calc_pressure` is a function of `(a0, b1, b2, c12, padc, tadc)`
alone: on two records that agree on these six fields, whatever their
register bytes and their earlier terms, it stores the same `c12x2`, `a1`,
`a1x1`, `y1`, `a2x2`, `pcomp` and `pressure`; and it leaves `register_data`,
`a0`, `b1`, `b2`, `c12`, `padc` and `tadc` unchanged. -/
theorem calc_pressure_pure (d1 d2 : mpl115a2)
    (ha0 : d1.a0 = d2.a0) (hb1 : d1.b1 = d2.b1) (hb2 : d1.b2 = d2.b2) (hc12 : d1.c12 = d2.c12)
    (hp : d1.padc = d2.padc) (ht : d1.tadc = d2.tadc) :
    same_terms (calc_pressure d1) (calc_pressure d2)
      ∧ ((calc_pressure d1).register_data = d1.register_data
        ∧ (calc_pressure d1).a0 = d1.a0 ∧ (calc_pressure d1).b1 = d1.b1
        ∧ (calc_pressure d1).b2 = d1.b2 ∧ (calc_pressure d1).c12 = d1.c12
        ∧ (calc_pressure d1).padc = d1.padc ∧ (calc_pressure d1).tadc = d1.tadc) := by
  refine ⟨?_, rfl, rfl, rfl, rfl, rfl, rfl, rfl⟩
  simp [same_terms, calc_pressure, ha0, hb1, hb2, hc12, hp, ht]

/-- C15, at the record of the worked example and a record with the same six
inputs but other register bytes and other earlier terms. -/
theorem calc_pressure_pure_witness :
    (calc_pressure example_record).pressure
      = (calc_pressure { example_record with
          register_data := fun _ => 0xff, c12x2 := 1, a1 := 2, a1x1 := 3, y1 := 4, a2x2 := 5,
          pcomp := 6, pressure := 7 }).pressure :=
  (calc_pressure_pure example_record _ rfl rfl rfl rfl rfl rfl).1.2.2.2.2.2.2

/-- C16: the decoded fields are written only after the validation passed: a
`get_coefficient` that fails, as it does when `check_coefficient_err` rejects
the block it read, leaves `a0`, `b1`, `b2` and `c12`, and a `measure` that
fails, as it does when `check_measure_err` rejects the block it read, leaves
`padc` and `tadc`. -/
theorem decoded_fields_kept_on_failure (d : mpl115a2) (w : World) :
    ((get_coefficient d w).1 = -1 →
        (get_coefficient d w).2.1.a0 = d.a0 ∧ (get_coefficient d w).2.1.b1 = d.b1
          ∧ (get_coefficient d w).2.1.b2 = d.b2 ∧ (get_coefficient d w).2.1.c12 = d.c12)
      ∧ (∀ w2 : World, (check_coefficient_err (get_coefficient d w).2.1 w2).1 = -1 →
          (get_coefficient d w).1 = -1)
      ∧ ((measure d w).1 = -1 →
          (measure d w).2.1.padc = d.padc ∧ (measure d w).2.1.tadc = d.tadc)
      ∧ (∀ w2 : World, (check_measure_err (measure d w).2.1 w2).1 = -1 →
          (measure d w).1 = -1) := by
  refine ⟨get_coefficient_failure d w, ?_, measure_failure d w, ?_⟩
  · intro w2 hc
    rcases get_coefficient_ret d w with h0 | h1
    · obtain ⟨p12, p13, p14, p15⟩ := get_coefficient_success_padding d w h0
      rw [check_coefficient_err_ret] at hc
      rw [if_neg (by simp [p12, p13, p14, p15])] at hc
      exact absurd hc (by decide)
    · exact h1
  · intro w2 hc
    rcases measure_ret d w with h0 | h1
    · rw [measure_success_check d w w2 h0] at hc
      exact absurd hc (by decide)
    · exact h1

/-- C16, at the record of the worked example and a bus that succeeds and
delivers bytes that the checks reject: twelve `01` bytes, so that the
padding is not zero, and four `00` bytes. -/
theorem decoded_fields_kept_on_failure_witness :
    ((check_coefficient_err
        (get_coefficient example_record
          (world_of (bus_ok [1, 1, 1, 1, 1, 1, 1, 1, 1, 1, 1, 1]))).2.1
        (world_of bus_fail)).1 = -1
      ∧ (get_coefficient example_record
          (world_of (bus_ok [1, 1, 1, 1, 1, 1, 1, 1, 1, 1, 1, 1]))).2.1.a0 = example_record.a0)
    ∧ ((check_measure_err
        (measure example_record (world_of (bus_ok [0, 0, 0, 0]))).2.1
        (world_of bus_fail)).1 = -1
      ∧ (measure example_record (world_of (bus_ok [0, 0, 0, 0]))).2.1.padc
          = example_record.padc) :=
  ⟨⟨by decide,
    ((decoded_fields_kept_on_failure example_record
        (world_of (bus_ok [1, 1, 1, 1, 1, 1, 1, 1, 1, 1, 1, 1]))).1
      ((decoded_fields_kept_on_failure example_record
        (world_of (bus_ok [1, 1, 1, 1, 1, 1, 1, 1, 1, 1, 1, 1]))).2.1
        (world_of bus_fail) (by decide))).1⟩,
   ⟨by decide,
    ((decoded_fields_kept_on_failure example_record (world_of (bus_ok [0, 0, 0, 0]))).2.2.1
      ((decoded_fields_kept_on_failure example_record (world_of (bus_ok [0, 0, 0, 0]))).2.2.2
        (world_of bus_fail) (by decide))).1⟩⟩

/-! ## Transport failures, the bus handle and the frame: claims C17, C18, C19 -/

/-- The result of a `get_coefficient` whose library call number `k` (0 the
`init`, 1 the `write`, 2 the `read`, 3 the `term`, 4 the `destroy`) is the
first to fail. -/
theorem get_coefficient_transport_failure (d : mpl115a2) (w : World) (k : Nat) (hk : k < 5)
    (hprev : ∀ i, i < k → (w.reply (w.calls + i)).ret ≠ -1)
    (hfail : (w.reply (w.calls + k)).ret = -1) :
    (get_coefficient d w).1 = -1 ∧ (k < 2 → (get_coefficient d w).2.1 = d) := by
  interval_cases k
  · simp only [Nat.add_zero] at hfail
    simp [get_coefficient, gen_i2c_slave, init_i2c_slave, World.emit, hfail]
  · have h0 := hprev 0 (by decide)
    simp only [Nat.add_zero] at h0
    simp [get_coefficient, gen_i2c_slave, init_i2c_slave, write_i2c_slave, World.emit, h0,
      hfail]
  · have h0 := hprev 0 (by decide)
    have h1 := hprev 1 (by decide)
    simp only [Nat.add_zero] at h0
    simp [get_coefficient, gen_i2c_slave, init_i2c_slave, write_i2c_slave, read_i2c_slave,
      World.emit, h0, h1, hfail]
  · have h0 := hprev 0 (by decide)
    have h1 := hprev 1 (by decide)
    have h2 := hprev 2 (by decide)
    simp only [Nat.add_zero] at h0
    simp [get_coefficient, gen_i2c_slave, init_i2c_slave, write_i2c_slave, read_i2c_slave,
      term_i2c_slave, World.emit, h0, h1, h2, hfail, Nat.add_assoc]
  · have h0 := hprev 0 (by decide)
    have h1 := hprev 1 (by decide)
    have h2 := hprev 2 (by decide)
    have h3 := hprev 3 (by decide)
    simp only [Nat.add_zero] at h0
    simp [get_coefficient, gen_i2c_slave, init_i2c_slave, write_i2c_slave, read_i2c_slave,
      term_i2c_slave, destroy_i2c_slave, World.emit, h0, h1, h2, h3, hfail,
      Nat.add_assoc]

/-- The result of a `measure` whose library call number `k` (0 the `init`,
1 and 2 the two `write`, 3 the `read`, 4 the `term`, 5 the `destroy`) is the
first to fail. -/
theorem measure_transport_failure (d : mpl115a2) (w : World) (k : Nat) (hk : k < 6)
    (hprev : ∀ i, i < k → (w.reply (w.calls + i)).ret ≠ -1)
    (hfail : (w.reply (w.calls + k)).ret = -1) :
    (measure d w).1 = -1 ∧ (k < 3 → (measure d w).2.1 = d) := by
  interval_cases k
  · simp only [Nat.add_zero] at hfail
    simp [measure, gen_i2c_slave, init_i2c_slave, World.emit, hfail]
  · have h0 := hprev 0 (by decide)
    simp only [Nat.add_zero] at h0
    simp [measure, gen_i2c_slave, init_i2c_slave, write_i2c_slave, World.emit, h0,
      hfail]
  · have h0 := hprev 0 (by decide)
    have h1 := hprev 1 (by decide)
    simp only [Nat.add_zero] at h0
    simp [measure, gen_i2c_slave, init_i2c_slave, write_i2c_slave, usleep,
      World.emit, h0, h1, hfail, Nat.add_assoc]
  · have h0 := hprev 0 (by decide)
    have h1 := hprev 1 (by decide)
    have h2 := hprev 2 (by decide)
    simp only [Nat.add_zero] at h0
    simp [measure, gen_i2c_slave, init_i2c_slave, write_i2c_slave, read_i2c_slave, usleep,
      World.emit, h0, h1, h2, hfail, Nat.add_assoc]
  · have h0 := hprev 0 (by decide)
    have h1 := hprev 1 (by decide)
    have h2 := hprev 2 (by decide)
    have h3 := hprev 3 (by decide)
    simp only [Nat.add_zero] at h0
    simp [measure, gen_i2c_slave, init_i2c_slave, write_i2c_slave, read_i2c_slave, usleep,
      term_i2c_slave, World.emit, h0, h1, h2, h3, hfail, Nat.add_assoc]
  · have h0 := hprev 0 (by decide)
    have h1 := hprev 1 (by decide)
    have h2 := hprev 2 (by decide)
    have h3 := hprev 3 (by decide)
    have h4 := hprev 4 (by decide)
    simp only [Nat.add_zero] at h0
    simp [measure, gen_i2c_slave, init_i2c_slave, write_i2c_slave, read_i2c_slave, usleep,
      term_i2c_slave, destroy_i2c_slave, World.emit, h0, h1, h2, h3, h4, hfail,
      Nat.add_assoc]

/-- C17 as stated fails: when `term_i2c_slave` fails after a successful
read, `get_coefficient` returns -1 and the caller's register block already
holds the bytes that were read. -/
theorem close_failure_exposes_read_bytes :
    (get_coefficient blank_record
        (world_of (bus_fail_at 3 [1, 2, 3, 4, 5, 6, 7, 8, 0, 0, 0, 0]))).1 = -1
      ∧ blank_record.register_data 4 = 0
      ∧ (get_coefficient blank_record
          (world_of (bus_fail_at 3 [1, 2, 3, 4, 5, 6, 7, 8, 0, 0, 0, 0]))).2.1.register_data 4
          = 1
      ∧ (get_coefficient blank_record
          (world_of (bus_fail_at 3 [1, 2, 3, 4, 5, 6, 7, 8, 0, 0, 0, 0]))).2.1.register_data
          ≠ blank_record.register_data := by
  refine ⟨by decide, by decide, by decide, ?_⟩
  intro h
  have h4 := congrFun h 4
  revert h4
  decide

/-- C17, amended: when a library call of `get_coefficient` or `measure`
fails, the call returns -1; the decoded fields (coefficients, counts and
terms) and the register bytes outside the region of that fetch are the same
as before the call, and when the failed call is the open or a write, the
whole record is the same as before the call. -/
theorem transport_failure_short_circuits (d : mpl115a2) (w : World) :
    (∀ k, k < 5 → (∀ i, i < k → (w.reply (w.calls + i)).ret ≠ -1) →
        (w.reply (w.calls + k)).ret = -1 →
        (get_coefficient d w).1 = -1
          ∧ ((get_coefficient d w).2.1.a0 = d.a0 ∧ (get_coefficient d w).2.1.b1 = d.b1
            ∧ (get_coefficient d w).2.1.b2 = d.b2 ∧ (get_coefficient d w).2.1.c12 = d.c12)
          ∧ same_measurement (get_coefficient d w).2.1 d
          ∧ same_terms (get_coefficient d w).2.1 d
          ∧ (k < 2 → (get_coefficient d w).2.1 = d))
      ∧ (∀ k, k < 6 → (∀ i, i < k → (w.reply (w.calls + i)).ret ≠ -1) →
        (w.reply (w.calls + k)).ret = -1 →
        (measure d w).1 = -1
          ∧ ((measure d w).2.1.padc = d.padc ∧ (measure d w).2.1.tadc = d.tadc)
          ∧ same_coefficients (measure d w).2.1 d
          ∧ same_terms (measure d w).2.1 d
          ∧ (k < 3 → (measure d w).2.1 = d)) := by
  constructor
  · intro k hk hprev hfail
    obtain ⟨h1, h4⟩ := get_coefficient_transport_failure d w k hk hprev hfail
    exact ⟨h1, get_coefficient_failure d w h1, (get_coefficient_frame d w).1,
      (get_coefficient_frame d w).2, h4⟩
  · intro k hk hprev hfail
    obtain ⟨h1, h4⟩ := measure_transport_failure d w k hk hprev hfail
    exact ⟨h1, measure_failure d w h1, (measure_frame d w).1,
      (measure_frame d w).2, h4⟩

/-- C17 amended, at a bus whose call number 1 fails: the `write` of
`get_coefficient` and the first `write` of `measure`. -/
theorem transport_failure_short_circuits_witness :
    ((get_coefficient example_record (world_of (bus_fail_at 1 [1, 2, 3, 4]))).1 = -1
      ∧ (get_coefficient example_record (world_of (bus_fail_at 1 [1, 2, 3, 4]))).2.1
          = example_record)
    ∧ ((measure example_record (world_of (bus_fail_at 1 [1, 2, 3, 4]))).1 = -1
      ∧ (measure example_record (world_of (bus_fail_at 1 [1, 2, 3, 4]))).2.1
          = example_record) :=
  ⟨⟨((transport_failure_short_circuits example_record
        (world_of (bus_fail_at 1 [1, 2, 3, 4]))).1 1 (by decide) (by decide) (by decide)).1,
    ((transport_failure_short_circuits example_record
        (world_of (bus_fail_at 1 [1, 2, 3, 4]))).1 1 (by decide) (by decide)
        (by decide)).2.2.2.2 (by decide)⟩,
   ⟨((transport_failure_short_circuits example_record
        (world_of (bus_fail_at 1 [1, 2, 3, 4]))).2 1 (by decide) (by decide) (by decide)).1,
    ((transport_failure_short_circuits example_record
        (world_of (bus_fail_at 1 [1, 2, 3, 4]))).2 1 (by decide) (by decide)
        (by decide)).2.2.2.2 (by decide)⟩⟩

/-- C18 fails on the code: on a bus whose `init_i2c_slave` succeeds and whose
next call, the `write`, fails, `get_coefficient` and `measure` return -1
right after the failed `write`, and neither `term_i2c_slave` nor
`destroy_i2c_slave` is called. -/
theorem write_failure_leaves_handle_open :
    ((init_i2c_slave (gen_i2c_slave (world_of (bus_fail_at 1 [])))).1 = 0
      ∧ (get_coefficient blank_record (world_of (bus_fail_at 1 []))).1 = -1
      ∧ (get_coefficient blank_record (world_of (bus_fail_at 1 []))).2.2.trace
          = [Event.gen_i2c_slave, Event.init_i2c_slave 0, Event.write_i2c_slave [0x04] (-1)]
      ∧ ∀ e ∈ (get_coefficient blank_record (world_of (bus_fail_at 1 []))).2.2.trace,
          e.releases = false)
    ∧ ((measure blank_record (world_of (bus_fail_at 1 []))).1 = -1
      ∧ (measure blank_record (world_of (bus_fail_at 1 []))).2.2.trace
          = [Event.gen_i2c_slave, Event.init_i2c_slave 0,
              Event.write_i2c_slave [0x12, 0x00] (-1)]
      ∧ ∀ e ∈ (measure blank_record (world_of (bus_fail_at 1 []))).2.2.trace,
          e.releases = false) := by
  have hg : (get_coefficient blank_record (world_of (bus_fail_at 1 []))).2.2.trace
      = [Event.gen_i2c_slave, Event.init_i2c_slave 0, Event.write_i2c_slave [0x04] (-1)] := by
    decide
  have hm : (measure blank_record (world_of (bus_fail_at 1 []))).2.2.trace
      = [Event.gen_i2c_slave, Event.init_i2c_slave 0,
          Event.write_i2c_slave [0x12, 0x00] (-1)] := by
    decide
  refine ⟨⟨by decide, by decide, hg, ?_⟩, ⟨by decide, hm, ?_⟩⟩
  · rw [hg]; decide
  · rw [hm]; decide

/-- C19: every `measure`, successful or not, leaves the register bytes 4..15
and the coefficients; every `get_coefficient` leaves the register bytes 0..3
and the counts; hence the second loop of `measure_retry`, however often it
retries `measure`, leaves the coefficient part it was entered with, and the
first loop leaves the measurement part. -/
theorem fetches_write_disjoint_parts (d : mpl115a2) (w : World) :
    same_coefficients (measure d w).2.1 d
      ∧ same_measurement (get_coefficient d w).2.1 d
      ∧ same_coefficients (measure_retry_measure_loop 0 d w).2.1 d
      ∧ same_measurement (measure_retry_coefficient_loop 0 d w).2.1 d :=
  ⟨(measure_frame d w).1, (get_coefficient_frame d w).1, (measure_loop_summary d w).1,
    (coefficient_loop_summary d w).1⟩

/-! ## The final record: claim C20 -/

/-- The three ways `measure_retry` ends: the first loop gives up, the second
loop gives up, or both end normally and the pressure is computed. -/
theorem measure_retry_cases (d : mpl115a2) (w : World) :
    ((measure_retry_coefficient_loop 0 d w).1 = some (-1)
        ∧ measure_retry d w
          = (-1, (measure_retry_coefficient_loop 0 d w).2.1,
              (measure_retry_coefficient_loop 0 d w).2.2))
      ∨ ((measure_retry_coefficient_loop 0 d w).1 = none
        ∧ (measure_retry_measure_loop 0 (measure_retry_coefficient_loop 0 d w).2.1
            (measure_retry_coefficient_loop 0 d w).2.2).1 = some (-1)
        ∧ measure_retry d w
          = (-1,
              (measure_retry_measure_loop 0 (measure_retry_coefficient_loop 0 d w).2.1
                (measure_retry_coefficient_loop 0 d w).2.2).2.1,
              (measure_retry_measure_loop 0 (measure_retry_coefficient_loop 0 d w).2.1
                (measure_retry_coefficient_loop 0 d w).2.2).2.2))
      ∨ ((measure_retry_coefficient_loop 0 d w).1 = none
        ∧ (measure_retry_measure_loop 0 (measure_retry_coefficient_loop 0 d w).2.1
            (measure_retry_coefficient_loop 0 d w).2.2).1 = none
        ∧ measure_retry d w
          = (0,
              calc_pressure
                (measure_retry_measure_loop 0 (measure_retry_coefficient_loop 0 d w).2.1
                  (measure_retry_coefficient_loop 0 d w).2.2).2.1,
              (measure_retry_measure_loop 0 (measure_retry_coefficient_loop 0 d w).2.1
                (measure_retry_coefficient_loop 0 d w).2.2).2.2)) := by
  have hc := (coefficient_loop_summary d w).2.2.2.1
  unfold measure_retry
  simp only
  rcases hcl : measure_retry_coefficient_loop 0 d w with ⟨r1, d1, w1⟩
  rw [hcl] at hc
  simp only at hc
  rcases hc with hc | hc
  · subst hc
    have hm := (measure_loop_summary d1 w1).2.2.2.1
    rcases hml : measure_retry_measure_loop 0 d1 w1 with ⟨r2, d2, w2⟩
    rw [hml] at hm
    simp only at hm
    rcases hm with hm | hm
    · subst hm
      simp [hml]
    · subst hm
      simp [hml]
  · subst hc
    exact Or.inl ⟨rfl, rfl⟩

theorem getD_of_isSome (o : Option ℚ) (x : ℚ) (h : o.isSome = true) (hx : x = o.getD 0) :
    o = some x := by
  cases o with
  | none => simp at h
  | some v => simp at hx; rw [hx]

/-- The record that `calc_pressure` makes of a record with zero padding,
valid measurement bytes, decoded coefficients and counts is self-consistent. -/
theorem self_consistent_calc_pressure (x : mpl115a2) (hb : bytes_ok x)
    (hpad : x.register_data 12 = 0 ∧ x.register_data 13 = 0 ∧ x.register_data 14 = 0
      ∧ x.register_data 15 = 0)
    (hchk : ∀ w : World, (check_measure_err x w).1 = 0)
    (ha0 : x.a0 = (convert_coefficient (x.register_data 4) (x.register_data 5) 16 3 0).getD 0)
    (hb1 : x.b1 = (convert_coefficient (x.register_data 6) (x.register_data 7) 16 13 0).getD 0)
    (hb2 : x.b2 = (convert_coefficient (x.register_data 8) (x.register_data 9) 16 14 0).getD 0)
    (hc12 : x.c12
      = (convert_coefficient (x.register_data 10) (x.register_data 11) 14 13 9).getD 0)
    (hp : x.padc = ((((x.register_data 0 <<< 8) ||| x.register_data 1) >>> 6 : Nat) : Int))
    (ht : x.tadc = ((((x.register_data 2 <<< 8) ||| x.register_data 3) >>> 6 : Nat) : Int)) :
    self_consistent (calc_pressure x) := by
  rw [shl8_or _ _ (hb 1), Nat.shiftRight_eq_div_pow] at hp
  rw [shl8_or _ _ (hb 3), Nat.shiftRight_eq_div_pow] at ht
  have b0 := hb 0
  have b1 := hb 1
  have b2 := hb 2
  have b3 := hb 3
  have hp2 : x.padc ≤ 1023 := by
    rw [hp]
    have : (x.register_data 0 * 256 + x.register_data 1) / 64 ≤ 1023 := by omega
    exact_mod_cast this
  have ht2 : x.tadc ≤ 1023 := by
    rw [ht]
    have : (x.register_data 2 * 256 + x.register_data 3) / 64 ≤ 1023 := by omega
    exact_mod_cast this
  exact ⟨hpad, hchk,
    ⟨getD_of_isSome _ _ (convert_coefficient_layouts_defined _ _).1 ha0,
      getD_of_isSome _ _ (convert_coefficient_layouts_defined _ _).2.1 hb1,
      getD_of_isSome _ _ (convert_coefficient_layouts_defined _ _).2.2.1 hb2,
      getD_of_isSome _ _ (convert_coefficient_layouts_defined _ _).2.2.2 hc12⟩,
    ⟨hp, ht, hp2, ht2⟩, rfl⟩

/-- C20, amended: on a record of bytes, `measure_retry` returns 0 or -1;
whenever it returns 0 the final record is self-consistent: zero padding,
bytes 0..3 that pass `check_measure_err`, coefficients decoded from the bytes
4..11, 10-bit counts of the bytes 0..3, and a pressure that is the formula
`(a0 + (b1 + c12*tadc)*padc + b2*tadc)*65/1023 + 50` evaluated in double
arithmetic, every operation rounded to the nearest double in the order of
`calc_pressure`; whenever it returns -1 the terms of the formula, `pressure`
among them, are those the record had before. -/
theorem measure_retry_consistent (d : mpl115a2) (w : World) (hd : bytes_ok d) :
    ((measure_retry d w).1 = 0 ∨ (measure_retry d w).1 = -1)
      ∧ ((measure_retry d w).1 = 0 → self_consistent (measure_retry d w).2.1)
      ∧ ((measure_retry d w).1 = -1 →
          same_terms (measure_retry d w).2.1 d
            ∧ (measure_retry d w).2.1.pressure = d.pressure) := by
  obtain ⟨_, hct, hcb, _, hcn⟩ := coefficient_loop_summary d w
  obtain ⟨hmc, hmt, hmb, _, hmn⟩ := measure_loop_summary
    (measure_retry_coefficient_loop 0 d w).2.1 (measure_retry_coefficient_loop 0 d w).2.2
  rcases measure_retry_cases d w with ⟨_, hr⟩ | ⟨_, _, hr⟩ | ⟨hc, hm, hr⟩
  · rw [hr]
    exact ⟨Or.inr rfl, fun h => by simp at h, fun _ => ⟨hct, hct.2.2.2.2.2.2⟩⟩
  · rw [hr]
    have ht := same_terms_trans hmt hct
    exact ⟨Or.inr rfl, fun h => by simp at h, fun _ => ⟨ht, ht.2.2.2.2.2.2⟩⟩
  · rw [hr]
    refine ⟨Or.inl rfl, fun _ => ?_, fun h => by simp at h⟩
    obtain ⟨hpad, ha0, hb1, hb2, hc12⟩ := hcn hc
    obtain ⟨hchk, hp, ht⟩ := hmn hm
    obtain ⟨hbytes, e0, e1, e2, e3⟩ := hmc
    refine self_consistent_calc_pressure _ (hmb (hcb hd)) ?_ hchk ?_ ?_ ?_ ?_ hp ht
    · exact ⟨(hbytes 12 (by decide)).trans hpad.1, (hbytes 13 (by decide)).trans hpad.2.1,
        (hbytes 14 (by decide)).trans hpad.2.2.1, (hbytes 15 (by decide)).trans hpad.2.2.2⟩
    · rw [e0, ha0, hbytes 4 (by decide), hbytes 5 (by decide)]
    · rw [e1, hb1, hbytes 6 (by decide), hbytes 7 (by decide)]
    · rw [e2, hb2, hbytes 8 (by decide), hbytes 9 (by decide)]
    · rw [e3, hc12, hbytes 10 (by decide), hbytes 11 (by decide)]

/-- The run of `measure_retry` in which the first loop gives up: its six
invocations of `get_coefficient` fail. -/
theorem measure_retry_of_coefficient_failures (d : mpl115a2) (w : World)
    (hfail : ∀ i, i < 6 →
      (get_coefficient (coefficient_attempt d w i).1 (coefficient_attempt d w i).2).1 = -1) :
    (measure_retry d w).1 = -1 := by
  have hloop := coefficient_loop_after_failures d w 5 (by decide)
    (fun i hi => hfail i (by omega))
  rw [coefficient_loop_exhausted 5 _ _ (hfail 5 (by decide)) (by decide)] at hloop
  simp only [measure_retry, hloop]

/-- C20, at a bus on which every call succeeds and the scenario bytes are
delivered, where `measure_retry` returns 0, and at a bus on which every call
fails, where it returns -1. -/
theorem measure_retry_consistent_witness :
    ((measure_retry blank_record
        (world_of (bus_ok [0x66, 0x80, 0x7e, 0xc0, 0, 0, 0, 0, 0, 0, 0, 0]))).1 = 0
      ∧ self_consistent (measure_retry blank_record
          (world_of (bus_ok [0x66, 0x80, 0x7e, 0xc0, 0, 0, 0, 0, 0, 0, 0, 0]))).2.1)
    ∧ ((measure_retry example_record (world_of bus_fail)).1 = -1
      ∧ (measure_retry example_record (world_of bus_fail)).2.1.pressure
          = example_record.pressure) :=
  ⟨⟨by rw [measure_retry_of_attempts blank_record
        (world_of (bus_ok [0x66, 0x80, 0x7e, 0xc0, 0, 0, 0, 0, 0, 0, 0, 0])) 0 0
        (by decide) (by decide) (by decide) (by decide) (by decide) (by decide)],
    (measure_retry_consistent blank_record
        (world_of (bus_ok [0x66, 0x80, 0x7e, 0xc0, 0, 0, 0, 0, 0, 0, 0, 0])) (by decide)).2.1
      (by rw [measure_retry_of_attempts blank_record
        (world_of (bus_ok [0x66, 0x80, 0x7e, 0xc0, 0, 0, 0, 0, 0, 0, 0, 0])) 0 0
        (by decide) (by decide) (by decide) (by decide) (by decide) (by decide)])⟩,
   ⟨measure_retry_of_coefficient_failures example_record (world_of bus_fail) (by decide),
    ((measure_retry_consistent example_record (world_of bus_fail) (by decide)).2.2
      (measure_retry_of_coefficient_failures example_record (world_of bus_fail)
        (by decide))).2⟩⟩

/-! ## The compensation formula in double arithmetic: claim C8 -/

theorem round_half_even_near (x : ℚ) (m : Int) (hlo : (m : ℚ) - 1 / 2 < x)
    (hhi : x < (m : ℚ) + 1 / 2) : round_half_even x = m := by
  have hf1 : ((⌊x⌋ : Int) : ℚ) ≤ x := Int.floor_le x
  have hf2 : x < ((⌊x⌋ : Int) : ℚ) + 1 := Int.lt_floor_add_one x
  have hm1 : (⌊x⌋ : Int) - 1 < m := by
    have : (((⌊x⌋ : Int) - 1 : Int) : ℚ) < (m : ℚ) := by push_cast; linarith
    exact_mod_cast this
  have hm2 : m < (⌊x⌋ : Int) + 2 := by
    have : (m : ℚ) < (((⌊x⌋ : Int) + 2 : Int) : ℚ) := by push_cast; linarith
    exact_mod_cast this
  have hcases : m = ⌊x⌋ ∨ m = ⌊x⌋ + 1 := by omega
  unfold round_half_even
  simp only
  rcases hcases with hc | hc
  · have hr : x - ((⌊x⌋ : Int) : ℚ) < 1 / 2 := by
      rw [hc] at hhi
      linarith
    rw [if_pos hr, hc]
  · have hr : 1 / 2 < x - ((⌊x⌋ : Int) : ℚ) := by
      rw [hc] at hlo
      push_cast at hlo
      linarith
    rw [if_neg (by linarith), if_pos hr, hc]

theorem round_half_even_tie_up (x : ℚ) (m : Int) (hx : x = (m : ℚ) + 1 / 2)
    (hm : m % 2 = 0) : round_half_even x = m := by
  have hfl : ⌊x⌋ = m := by
    rw [Int.floor_eq_iff]
    constructor <;> linarith
  unfold round_half_even
  simp only [hfl]
  have hr : x - (m : ℚ) = 1 / 2 := by linarith
  rw [hr, if_neg (lt_irrefl _), if_neg (lt_irrefl _), if_pos hm]

theorem round_half_even_tie_down (x : ℚ) (m : Int) (hx : x = (m : ℚ) - 1 / 2)
    (hm : m % 2 = 0) : round_half_even x = m := by
  have hfl : ⌊x⌋ = m - 1 := by
    rw [Int.floor_eq_iff]
    push_cast
    constructor <;> linarith
  unfold round_half_even
  simp only [hfl]
  have hr : x - (((m - 1 : Int)) : ℚ) = 1 / 2 := by push_cast; linarith
  have hodd : ¬ ((m - 1) % 2 = 0) := by omega
  rw [hr, if_neg (lt_irrefl _), if_neg (lt_irrefl _), if_neg hodd]
  omega

theorem ulp_exponent_eq (q : ℚ) (e : Int) (h1 : (2 : ℚ) ^ e ≤ |q|)
    (h2 : |q| < (2 : ℚ) ^ (e + 1)) (he : -1022 ≤ e) : ulp_exponent q = e - 52 := by
  have hpos : 0 < |q| := lt_of_lt_of_le (by positivity) h1
  have hl1 : e ≤ Int.log 2 |q| :=
    (Int.zpow_le_iff_le_log (b := 2) (by norm_num) hpos (x := e)).mp (by exact_mod_cast h1)
  have hl2 : Int.log 2 |q| < e + 1 :=
    (Int.lt_zpow_iff_log_lt (b := 2) (by norm_num) hpos (x := e + 1)).mp (by exact_mod_cast h2)
  unfold ulp_exponent
  have : Int.log 2 |q| = e := by omega
  rw [this]
  omega

/-- The double nearest to a positive `q` in the binade of `2^e`, from the
rounding of its significand. -/
theorem to_double_pos (q : ℚ) (e m : Int) (v : ℚ) (h1 : (2 : ℚ) ^ e ≤ q)
    (h2 : q < (2 : ℚ) ^ (e + 1)) (he : -1022 ≤ e)
    (hr : round_half_even (q / 2 ^ (e - 52)) = m) (hv : v = (m : ℚ) * 2 ^ (e - 52)) :
    to_double q = v := by
  have hq : 0 < q := lt_of_lt_of_le (by positivity) h1
  unfold to_double
  rw [ulp_exponent_eq q e (by rw [abs_of_pos hq]; exact h1) (by rw [abs_of_pos hq]; exact h2) he,
    hr, hv]

/-- The double nearest to a negative `q` in the binade of `2^e`, from the
rounding of its significand. -/
theorem to_double_neg (q : ℚ) (e m : Int) (v : ℚ) (h1 : (2 : ℚ) ^ e ≤ -q)
    (h2 : -q < (2 : ℚ) ^ (e + 1)) (he : -1022 ≤ e)
    (hr : round_half_even (q / 2 ^ (e - 52)) = m) (hv : v = (m : ℚ) * 2 ^ (e - 52)) :
    to_double q = v := by
  have hq : q < 0 := by
    have : 0 < -q := lt_of_lt_of_le (by positivity) h1
    linarith
  unfold to_double
  rw [ulp_exponent_eq q e (by rw [abs_of_neg hq]; exact h1) (by rw [abs_of_neg hq]; exact h2) he,
    hr, hv]

theorem to_double_zero : to_double 0 = 0 := by
  simp [to_double, round_half_even]

/-- The doubles nearest to the decimal coefficients of the worked example. -/
theorem example_inputs :
    to_double (-0.002) = (-(1152921504606847 / 2 ^ 59))
      ∧ to_double (-0.00003) = (-(8854437155380585 / 2 ^ 68))
      ∧ to_double 0.00000015 = 2833419889721787 / 2 ^ 74 := by
  refine ⟨?_, ?_, ?_⟩
  · show to_double (-0.002) = _
    refine to_double_neg _ (-9) (-4611686018427388) _ (by norm_num) (by norm_num) (by norm_num)
      (round_half_even_near _ _ (by norm_num) (by norm_num)) (by norm_num)
  · show to_double (-0.00003) = _
    refine to_double_neg _ (-16) (-8854437155380585) _ (by norm_num) (by norm_num) (by norm_num)
      (round_half_even_near _ _ (by norm_num) (by norm_num)) (by norm_num)
  · show to_double 0.00000015 = _
    refine to_double_pos _ (-23) 5666839779443574 _ (by norm_num) (by norm_num) (by norm_num)
      (round_half_even_near _ _ (by norm_num) (by norm_num)) (by norm_num)

/-- The terms that `calc_pressure` stores for the worked example, each the
double that the rounded operation gives. -/
theorem example_terms (d : mpl115a2) (h0 : d.a0 = 2) (hb1 : d.b1 = to_double (-0.002))
    (hb2 : d.b2 = to_double (-0.00003)) (hc12 : d.c12 = to_double 0.00000015)
    (hp : d.padc = 410) (ht : d.tadc = 1050) :
    (calc_pressure d).c12x2 = 1452681095804627 / 2 ^ 63
      ∧ (calc_pressure d).a1 = (-(4248515744476231 / 2 ^ 61))
      ∧ (calc_pressure d).a1x1 = (-(3402131748506357 / 2 ^ 52))
      ∧ (calc_pressure d).y1 = 5605067506234635 / 2 ^ 52
      ∧ (calc_pressure d).a2x2 = (-(1134907106097365 / 2 ^ 55))
      ∧ (calc_pressure d).pcomp = 341450257373279 / 2 ^ 48
      ∧ (calc_pressure d).pressure = 7047722055463987 / 2 ^ 47 := by
  obtain ⟨eB1, eB2, eC12⟩ := example_inputs
  have c1 : (calc_pressure d).c12x2 = 1452681095804627 / 2 ^ 63 := by
    show to_double (d.c12 * (d.tadc : ℚ)) = _
    rw [hc12, ht, eC12]
    refine to_double_pos _ (-13) 5810724383218508 _ (by norm_num) (by norm_num) (by norm_num)
      (round_half_even_near _ _ (by norm_num) (by norm_num)) (by norm_num)
  have c2 : (calc_pressure d).a1 = (-(4248515744476231 / 2 ^ 61)) := by
    show to_double (d.b1 + (calc_pressure d).c12x2) = _
    rw [hb1, c1, eB1]
    refine to_double_neg _ (-10) (-8497031488952462) _ (by norm_num) (by norm_num) (by norm_num)
      (round_half_even_tie_down _ _ (by norm_num) (by norm_num)) (by norm_num)
  have c3 : (calc_pressure d).a1x1 = (-(3402131748506357 / 2 ^ 52)) := by
    show to_double ((calc_pressure d).a1 * (d.padc : ℚ)) = _
    rw [c2, hp]
    refine to_double_neg _ (-1) (-6804263497012714) _ (by norm_num) (by norm_num) (by norm_num)
      (round_half_even_near _ _ (by norm_num) (by norm_num)) (by norm_num)
  have c4 : (calc_pressure d).y1 = 5605067506234635 / 2 ^ 52 := by
    show to_double (d.a0 + (calc_pressure d).a1x1) = _
    rw [h0, c3]
    refine to_double_pos _ 0 5605067506234635 _ (by norm_num) (by norm_num) (by norm_num)
      (round_half_even_near _ _ (by norm_num) (by norm_num)) (by norm_num)
  have c5 : (calc_pressure d).a2x2 = (-(1134907106097365 / 2 ^ 55)) := by
    show to_double (d.b2 * (d.tadc : ℚ)) = _
    rw [hb2, ht, eB2]
    refine to_double_neg _ (-5) (-4539628424389460) _ (by norm_num) (by norm_num) (by norm_num)
      (round_half_even_near _ _ (by norm_num) (by norm_num)) (by norm_num)
  have c6 : (calc_pressure d).pcomp = 341450257373279 / 2 ^ 48 := by
    show to_double ((calc_pressure d).y1 + (calc_pressure d).a2x2) = _
    rw [c4, c5]
    refine to_double_pos _ 0 5463204117972464 _ (by norm_num) (by norm_num) (by norm_num)
      (round_half_even_near _ _ (by norm_num) (by norm_num)) (by norm_num)
  have t1 : to_double ((calc_pressure d).pcomp * 65) = 693570835289473 / 2 ^ 43 := by
    rw [c6]
    refine to_double_pos _ 6 5548566682315784 _ (by norm_num) (by norm_num) (by norm_num)
      (round_half_even_near _ _ (by norm_num) (by norm_num)) (by norm_num)
  have t2 : to_double (to_double ((calc_pressure d).pcomp * 65) / 1023)
      = 2776995250582289 / 2 ^ 55 := by
    rw [t1]
    refine to_double_pos _ (-4) 5553990501164578 _ (by norm_num) (by norm_num) (by norm_num)
      (round_half_even_near _ _ (by norm_num) (by norm_num)) (by norm_num)
  have c7 : (calc_pressure d).pressure = 7047722055463987 / 2 ^ 47 := by
    show to_double (to_double (to_double ((calc_pressure d).pcomp * 65) / 1023) + 50) = _
    rw [t2]
    refine to_double_pos _ 5 7047722055463987 _ (by norm_num) (by norm_num) (by norm_num)
      (round_half_even_near _ _ (by norm_num) (by norm_num)) (by norm_num)
  exact ⟨c1, c2, c3, c4, c5, c6, c7⟩

/-- C8 as stated fails: for the worked example, with each coefficient the
double nearest to its decimal, the stored `c12x2` is
`1452681095804627 / 2^63`, the double printed 0.00015749999999999998; it is
neither 0.0001575 nor the exact product of the stored `c12` and `tadc`. -/
theorem example_c12x2_is_rounded :
    (calc_pressure example_record).c12x2 = 1452681095804627 / 2 ^ 63
      ∧ (calc_pressure example_record).c12x2 ≠ 0.0001575
      ∧ (calc_pressure example_record).c12x2
          ≠ example_record.c12 * (example_record.tadc : ℚ) := by
  obtain ⟨c1, _⟩ := example_terms example_record rfl rfl rfl rfl rfl rfl
  refine ⟨c1, ?_, ?_⟩
  · rw [c1]; norm_num
  · rw [c1]
    show _ ≠ to_double 0.00000015 * ((1050 : Int) : ℚ)
    rw [example_inputs.2.2]
    norm_num

/-- C8, amended: `calc_pressure` stores, in double arithmetic with every
operation rounded to the nearest double, `c12x2 = c12*tadc`,
`a1 = b1 + c12x2`, `a1x1 = a1*padc`, `y1 = a0 + a1x1`, `a2x2 = b2*tadc`,
`pcomp = y1 + a2x2` and `pressure = pcomp*65/1023 + 50`, so that `pressure`
is the formula `(a0 + (b1 + c12*tadc)*padc + b2*tadc)*65/1023 + 50` evaluated
in that arithmetic and order; for `a0 = 2`, `padc = 410`, `tadc = 1050` and
`b1`, `b2`, `c12` the doubles nearest to -0.002, -0.00003, 0.00000015, the
stored terms are the doubles listed, each within `10^-15` of 0.0001575,
-0.0018425, -0.755425, 1.244575, -0.0315, 1.213075 and
`1.213075*65/1023 + 50`. -/
theorem calc_pressure_chain (d : mpl115a2) :
    ((calc_pressure d).c12x2 = to_double (d.c12 * (d.tadc : ℚ))
      ∧ (calc_pressure d).a1 = to_double (d.b1 + (calc_pressure d).c12x2)
      ∧ (calc_pressure d).a1x1 = to_double ((calc_pressure d).a1 * (d.padc : ℚ))
      ∧ (calc_pressure d).y1 = to_double (d.a0 + (calc_pressure d).a1x1)
      ∧ (calc_pressure d).a2x2 = to_double (d.b2 * (d.tadc : ℚ))
      ∧ (calc_pressure d).pcomp = to_double ((calc_pressure d).y1 + (calc_pressure d).a2x2)
      ∧ (calc_pressure d).pressure
          = to_double (to_double (to_double ((calc_pressure d).pcomp * 65) / 1023) + 50))
    ∧ (calc_pressure d).pressure
        = to_double (to_double (to_double (to_double
            (to_double (d.a0 + to_double (to_double (d.b1 + to_double (d.c12 * (d.tadc : ℚ)))
                * (d.padc : ℚ)))
              + to_double (d.b2 * (d.tadc : ℚ))) * 65) / 1023) + 50)
    ∧ (d.a0 = 2 → d.b1 = to_double (-0.002) → d.b2 = to_double (-0.00003) →
        d.c12 = to_double 0.00000015 → d.padc = 410 → d.tadc = 1050 →
        ((calc_pressure d).c12x2 = 1452681095804627 / 2 ^ 63
          ∧ (calc_pressure d).a1 = (-(4248515744476231 / 2 ^ 61))
          ∧ (calc_pressure d).a1x1 = (-(3402131748506357 / 2 ^ 52))
          ∧ (calc_pressure d).y1 = 5605067506234635 / 2 ^ 52
          ∧ (calc_pressure d).a2x2 = (-(1134907106097365 / 2 ^ 55))
          ∧ (calc_pressure d).pcomp = 341450257373279 / 2 ^ 48
          ∧ (calc_pressure d).pressure = 7047722055463987 / 2 ^ 47)
        ∧ (|(calc_pressure d).c12x2 - 0.0001575| < 1 / 10 ^ 15
          ∧ |(calc_pressure d).a1 - (-0.0018425)| < 1 / 10 ^ 15
          ∧ |(calc_pressure d).a1x1 - (-0.755425)| < 1 / 10 ^ 15
          ∧ |(calc_pressure d).y1 - 1.244575| < 1 / 10 ^ 15
          ∧ |(calc_pressure d).a2x2 - (-0.0315)| < 1 / 10 ^ 15
          ∧ |(calc_pressure d).pcomp - 1.213075| < 1 / 10 ^ 15
          ∧ |(calc_pressure d).pressure - (1.213075 * 65 / 1023 + 50)| < 1 / 10 ^ 15)) := by
  refine ⟨⟨rfl, rfl, rfl, rfl, rfl, rfl, rfl⟩, rfl, ?_⟩
  intro h0 hb1 hb2 hc12 hp ht
  obtain ⟨c1, c2, c3, c4, c5, c6, c7⟩ := example_terms d h0 hb1 hb2 hc12 hp ht
  refine ⟨⟨c1, c2, c3, c4, c5, c6, c7⟩, ?_, ?_, ?_, ?_, ?_, ?_, ?_⟩
  · rw [c1, abs_lt]; constructor <;> norm_num
  · rw [c2, abs_lt]; constructor <;> norm_num
  · rw [c3, abs_lt]; constructor <;> norm_num
  · rw [c4, abs_lt]; constructor <;> norm_num
  · rw [c5, abs_lt]; constructor <;> norm_num
  · rw [c6, abs_lt]; constructor <;> norm_num
  · rw [c7, abs_lt]; constructor <;> norm_num

/-- C8 amended, at the record of the worked example. -/
theorem calc_pressure_chain_witness :
    (calc_pressure example_record).pressure = 7047722055463987 / 2 ^ 47
      ∧ |(calc_pressure example_record).pressure - (1.213075 * 65 / 1023 + 50)| < 1 / 10 ^ 15 :=
  ⟨((calc_pressure_chain example_record).2.2 rfl rfl rfl rfl rfl rfl).1.2.2.2.2.2.2,
   ((calc_pressure_chain example_record).2.2 rfl rfl rfl rfl rfl rfl).2.2.2.2.2.2.2⟩

/-! ## The pressure of the final record is a rounded value: claim C20 -/

/-- The pressure that `calc_pressure` stores for the coefficients and counts
of the bytes `66 80 7e c0`. -/
theorem scenario_pressure (x : mpl115a2) (h0 : x.a0 = 3280) (hb1 : x.b1 = 507 / 128)
    (hb2 : x.b2 = 0) (hc12 : x.c12 = 0) (hp : x.padc = 410) :
    (calc_pressure x).pressure = 6361200070993129 / 2 ^ 44 := by
  have c1 : (calc_pressure x).c12x2 = 0 := by
    show to_double (x.c12 * (x.tadc : ℚ)) = 0
    rw [hc12, zero_mul, to_double_zero]
  have c2 : (calc_pressure x).a1 = 507 / 2 ^ 7 := by
    show to_double (x.b1 + (calc_pressure x).c12x2) = _
    rw [hb1, c1]
    refine to_double_pos _ 1 8919238324518912 _ (by norm_num) (by norm_num) (by norm_num)
      (round_half_even_near _ _ (by norm_num) (by norm_num)) (by norm_num)
  have c3 : (calc_pressure x).a1x1 = 103935 / 2 ^ 6 := by
    show to_double ((calc_pressure x).a1 * (x.padc : ℚ)) = _
    rw [c2, hp]
    refine to_double_pos _ 10 7142358814556160 _ (by norm_num) (by norm_num) (by norm_num)
      (round_half_even_near _ _ (by norm_num) (by norm_num)) (by norm_num)
  have c4 : (calc_pressure x).y1 = 313855 / 2 ^ 6 := by
    show to_double (x.a0 + (calc_pressure x).a1x1) = _
    rw [h0, c3]
    refine to_double_pos _ 12 5391987842744320 _ (by norm_num) (by norm_num) (by norm_num)
      (round_half_even_near _ _ (by norm_num) (by norm_num)) (by norm_num)
  have c5 : (calc_pressure x).a2x2 = 0 := by
    show to_double (x.b2 * (x.tadc : ℚ)) = 0
    rw [hb2, zero_mul, to_double_zero]
  have c6 : (calc_pressure x).pcomp = 313855 / 2 ^ 6 := by
    show to_double ((calc_pressure x).y1 + (calc_pressure x).a2x2) = _
    rw [c4, c5]
    refine to_double_pos _ 12 5391987842744320 _ (by norm_num) (by norm_num) (by norm_num)
      (round_half_even_near _ _ (by norm_num) (by norm_num)) (by norm_num)
  have t1 : to_double ((calc_pressure x).pcomp * 65) = 20400575 / 2 ^ 6 := by
    rw [c6]
    refine to_double_pos _ 18 5476237652787200 _ (by norm_num) (by norm_num) (by norm_num)
      (round_half_even_near _ _ (by norm_num) (by norm_num)) (by norm_num)
  have t2 : to_double (to_double ((calc_pressure x).pcomp * 65) / 1023)
      = 5481590768772329 / 2 ^ 44 := by
    rw [t1]
    refine to_double_pos _ 8 5481590768772329 _ (by norm_num) (by norm_num) (by norm_num)
      (round_half_even_near _ _ (by norm_num) (by norm_num)) (by norm_num)
  show to_double (to_double (to_double ((calc_pressure x).pcomp * 65) / 1023) + 50) = _
  rw [t2]
  refine to_double_pos _ 8 6361200070993129 _ (by norm_num) (by norm_num) (by norm_num)
    (round_half_even_near _ _ (by norm_num) (by norm_num)) (by norm_num)

/-- C20 as stated fails: on a bus that succeeds and delivers the bytes
`66 80 7e c0` followed by zeros, `measure_retry` returns 0 and the stored
pressure is the double `6361200070993129 / 2^44`, printed
361.59236009286411, which is not the exact value `23674175/65472` of the
formula at the stored coefficients and counts. -/
theorem scenario_pressure_is_rounded :
    (measure_retry blank_record (world_of (bus_ok [0x66, 0x80, 0x7e, 0xc0, 0, 0, 0, 0, 0, 0, 0, 0]))).1 = 0
      ∧ (measure_retry blank_record (world_of (bus_ok [0x66, 0x80, 0x7e, 0xc0, 0, 0, 0, 0, 0, 0, 0, 0]))).2.1.pressure = 6361200070993129 / 2 ^ 44
      ∧ (measure_retry blank_record (world_of (bus_ok [0x66, 0x80, 0x7e, 0xc0, 0, 0, 0, 0, 0, 0, 0, 0]))).2.1.pressure
          ≠ ((measure_retry blank_record (world_of (bus_ok [0x66, 0x80, 0x7e, 0xc0, 0, 0, 0, 0, 0, 0, 0, 0]))).2.1.a0
              + ((measure_retry blank_record (world_of (bus_ok [0x66, 0x80, 0x7e, 0xc0, 0, 0, 0, 0, 0, 0, 0, 0]))).2.1.b1
                  + (measure_retry blank_record (world_of (bus_ok [0x66, 0x80, 0x7e, 0xc0, 0, 0, 0, 0, 0, 0, 0, 0]))).2.1.c12
                    * ((measure_retry blank_record (world_of (bus_ok [0x66, 0x80, 0x7e, 0xc0, 0, 0, 0, 0, 0, 0, 0, 0]))).2.1.tadc : ℚ))
                * ((measure_retry blank_record (world_of (bus_ok [0x66, 0x80, 0x7e, 0xc0, 0, 0, 0, 0, 0, 0, 0, 0]))).2.1.padc : ℚ)
              + (measure_retry blank_record (world_of (bus_ok [0x66, 0x80, 0x7e, 0xc0, 0, 0, 0, 0, 0, 0, 0, 0]))).2.1.b2
                * ((measure_retry blank_record (world_of (bus_ok [0x66, 0x80, 0x7e, 0xc0, 0, 0, 0, 0, 0, 0, 0, 0]))).2.1.tadc : ℚ)) * 65 / 1023 + 50 := by
  have hrun := measure_retry_of_attempts blank_record (world_of (bus_ok [0x66, 0x80, 0x7e, 0xc0, 0, 0, 0, 0, 0, 0, 0, 0])) 0 0
    (by decide) (by decide) (by decide) (by decide) (by decide) (by decide)
  have hrun2 : measure_retry blank_record (world_of (bus_ok [0x66, 0x80, 0x7e, 0xc0, 0, 0, 0, 0, 0, 0, 0, 0]))
      = (0,
          calc_pressure
            (measure (get_coefficient blank_record (world_of (bus_ok [0x66, 0x80, 0x7e, 0xc0, 0, 0, 0, 0, 0, 0, 0, 0]))).2.1
              (get_coefficient blank_record (world_of (bus_ok [0x66, 0x80, 0x7e, 0xc0, 0, 0, 0, 0, 0, 0, 0, 0]))).2.2).2.1,
          (measure (get_coefficient blank_record (world_of (bus_ok [0x66, 0x80, 0x7e, 0xc0, 0, 0, 0, 0, 0, 0, 0, 0]))).2.1
              (get_coefficient blank_record (world_of (bus_ok [0x66, 0x80, 0x7e, 0xc0, 0, 0, 0, 0, 0, 0, 0, 0]))).2.2).2.2) := hrun
  have hgret : (get_coefficient blank_record (world_of (bus_ok [0x66, 0x80, 0x7e, 0xc0, 0, 0, 0, 0, 0, 0, 0, 0]))).1 = 0 := by decide
  have hmret : (measure (get_coefficient blank_record (world_of (bus_ok [0x66, 0x80, 0x7e, 0xc0, 0, 0, 0, 0, 0, 0, 0, 0]))).2.1
      (get_coefficient blank_record (world_of (bus_ok [0x66, 0x80, 0x7e, 0xc0, 0, 0, 0, 0, 0, 0, 0, 0]))).2.2).1 = 0 := by decide
  obtain ⟨g0, g1, g2, g3⟩ := get_coefficient_values blank_record (world_of (bus_ok [0x66, 0x80, 0x7e, 0xc0, 0, 0, 0, 0, 0, 0, 0, 0])) (by decide) hgret
  have e4 : (get_coefficient blank_record (world_of (bus_ok [0x66, 0x80, 0x7e, 0xc0, 0, 0, 0, 0, 0, 0, 0, 0]))).2.1.register_data 4 = 0x66 := by decide
  have e5 : (get_coefficient blank_record (world_of (bus_ok [0x66, 0x80, 0x7e, 0xc0, 0, 0, 0, 0, 0, 0, 0, 0]))).2.1.register_data 5 = 0x80 := by decide
  have e6 : (get_coefficient blank_record (world_of (bus_ok [0x66, 0x80, 0x7e, 0xc0, 0, 0, 0, 0, 0, 0, 0, 0]))).2.1.register_data 6 = 0x7e := by decide
  have e7 : (get_coefficient blank_record (world_of (bus_ok [0x66, 0x80, 0x7e, 0xc0, 0, 0, 0, 0, 0, 0, 0, 0]))).2.1.register_data 7 = 0xc0 := by decide
  have e8 : (get_coefficient blank_record (world_of (bus_ok [0x66, 0x80, 0x7e, 0xc0, 0, 0, 0, 0, 0, 0, 0, 0]))).2.1.register_data 8 = 0 := by decide
  have e9 : (get_coefficient blank_record (world_of (bus_ok [0x66, 0x80, 0x7e, 0xc0, 0, 0, 0, 0, 0, 0, 0, 0]))).2.1.register_data 9 = 0 := by decide
  have e10 : (get_coefficient blank_record (world_of (bus_ok [0x66, 0x80, 0x7e, 0xc0, 0, 0, 0, 0, 0, 0, 0, 0]))).2.1.register_data 10 = 0 := by decide
  have e11 : (get_coefficient blank_record (world_of (bus_ok [0x66, 0x80, 0x7e, 0xc0, 0, 0, 0, 0, 0, 0, 0, 0]))).2.1.register_data 11 = 0 := by decide
  rw [e4, e5] at g0
  rw [e6, e7] at g1
  rw [e8, e9] at g2
  rw [e10, e11] at g3
  obtain ⟨⟨_, f0, f1, f2, f3⟩, _⟩ := measure_frame (get_coefficient blank_record (world_of (bus_ok [0x66, 0x80, 0x7e, 0xc0, 0, 0, 0, 0, 0, 0, 0, 0]))).2.1
    (get_coefficient blank_record (world_of (bus_ok [0x66, 0x80, 0x7e, 0xc0, 0, 0, 0, 0, 0, 0, 0, 0]))).2.2
  obtain ⟨mp, mt⟩ := measure_values (get_coefficient blank_record (world_of (bus_ok [0x66, 0x80, 0x7e, 0xc0, 0, 0, 0, 0, 0, 0, 0, 0]))).2.1
    (get_coefficient blank_record (world_of (bus_ok [0x66, 0x80, 0x7e, 0xc0, 0, 0, 0, 0, 0, 0, 0, 0]))).2.2
    (get_coefficient_bytes_ok blank_record (world_of (bus_ok [0x66, 0x80, 0x7e, 0xc0, 0, 0, 0, 0, 0, 0, 0, 0])) (by decide)) hmret
  have r0 : (measure (get_coefficient blank_record (world_of (bus_ok [0x66, 0x80, 0x7e, 0xc0, 0, 0, 0, 0, 0, 0, 0, 0]))).2.1
      (get_coefficient blank_record (world_of (bus_ok [0x66, 0x80, 0x7e, 0xc0, 0, 0, 0, 0, 0, 0, 0, 0]))).2.2).2.1.register_data 0 = 0x66 := by decide
  have r1 : (measure (get_coefficient blank_record (world_of (bus_ok [0x66, 0x80, 0x7e, 0xc0, 0, 0, 0, 0, 0, 0, 0, 0]))).2.1
      (get_coefficient blank_record (world_of (bus_ok [0x66, 0x80, 0x7e, 0xc0, 0, 0, 0, 0, 0, 0, 0, 0]))).2.2).2.1.register_data 1 = 0x80 := by decide
  have r2 : (measure (get_coefficient blank_record (world_of (bus_ok [0x66, 0x80, 0x7e, 0xc0, 0, 0, 0, 0, 0, 0, 0, 0]))).2.1
      (get_coefficient blank_record (world_of (bus_ok [0x66, 0x80, 0x7e, 0xc0, 0, 0, 0, 0, 0, 0, 0, 0]))).2.2).2.1.register_data 2 = 0x7e := by decide
  have r3 : (measure (get_coefficient blank_record (world_of (bus_ok [0x66, 0x80, 0x7e, 0xc0, 0, 0, 0, 0, 0, 0, 0, 0]))).2.1
      (get_coefficient blank_record (world_of (bus_ok [0x66, 0x80, 0x7e, 0xc0, 0, 0, 0, 0, 0, 0, 0, 0]))).2.2).2.1.register_data 3 = 0xc0 := by decide
  rw [r0, r1] at mp
  rw [r2, r3] at mt
  have x0 : (measure (get_coefficient blank_record (world_of (bus_ok [0x66, 0x80, 0x7e, 0xc0, 0, 0, 0, 0, 0, 0, 0, 0]))).2.1
      (get_coefficient blank_record (world_of (bus_ok [0x66, 0x80, 0x7e, 0xc0, 0, 0, 0, 0, 0, 0, 0, 0]))).2.2).2.1.a0 = 3280 := by
    rw [f0, g0]; norm_num [signed16]
  have x1 : (measure (get_coefficient blank_record (world_of (bus_ok [0x66, 0x80, 0x7e, 0xc0, 0, 0, 0, 0, 0, 0, 0, 0]))).2.1
      (get_coefficient blank_record (world_of (bus_ok [0x66, 0x80, 0x7e, 0xc0, 0, 0, 0, 0, 0, 0, 0, 0]))).2.2).2.1.b1 = 507 / 128 := by
    rw [f1, g1]; norm_num [signed16]
  have x2 : (measure (get_coefficient blank_record (world_of (bus_ok [0x66, 0x80, 0x7e, 0xc0, 0, 0, 0, 0, 0, 0, 0, 0]))).2.1
      (get_coefficient blank_record (world_of (bus_ok [0x66, 0x80, 0x7e, 0xc0, 0, 0, 0, 0, 0, 0, 0, 0]))).2.2).2.1.b2 = 0 := by
    rw [f2, g2]; norm_num [signed16]
  have x3 : (measure (get_coefficient blank_record (world_of (bus_ok [0x66, 0x80, 0x7e, 0xc0, 0, 0, 0, 0, 0, 0, 0, 0]))).2.1
      (get_coefficient blank_record (world_of (bus_ok [0x66, 0x80, 0x7e, 0xc0, 0, 0, 0, 0, 0, 0, 0, 0]))).2.2).2.1.c12 = 0 := by
    rw [f3, g3]; norm_num [signed16]
  have xp : (measure (get_coefficient blank_record (world_of (bus_ok [0x66, 0x80, 0x7e, 0xc0, 0, 0, 0, 0, 0, 0, 0, 0]))).2.1
      (get_coefficient blank_record (world_of (bus_ok [0x66, 0x80, 0x7e, 0xc0, 0, 0, 0, 0, 0, 0, 0, 0]))).2.2).2.1.padc = 410 := by
    rw [mp]; norm_num
  have xt : (measure (get_coefficient blank_record (world_of (bus_ok [0x66, 0x80, 0x7e, 0xc0, 0, 0, 0, 0, 0, 0, 0, 0]))).2.1
      (get_coefficient blank_record (world_of (bus_ok [0x66, 0x80, 0x7e, 0xc0, 0, 0, 0, 0, 0, 0, 0, 0]))).2.2).2.1.tadc = 507 := by
    rw [mt]; norm_num
  have hpr := scenario_pressure _ x0 x1 x2 x3 xp
  rw [hrun2]
  refine ⟨rfl, hpr, ?_⟩
  show (calc_pressure _).pressure ≠ _
  rw [hpr]
  show _ ≠ ((measure _ _).2.1.a0 + ((measure _ _).2.1.b1 + (measure _ _).2.1.c12
      * ((measure _ _).2.1.tadc : ℚ)) * ((measure _ _).2.1.padc : ℚ)
    + (measure _ _).2.1.b2 * ((measure _ _).2.1.tadc : ℚ)) * 65 / 1023 + 50
  rw [x0, x1, x2, x3, xp, xt]
  norm_num

end MPL115A2
